import Mathlib

/-!
Verification of the book-generation orchestrator of this repository.

The Python modules `book_generator/execute.py`, `chapter_based/execute.py`
and `book_generator/utils.py` are shallowly embedded below: plan models
become Lean structures, the content store becomes a record of partial maps,
the generative backend becomes an explicit oracle returning `Except`, and
the orchestrator's observable behaviour (backend calls and saves) is
recorded in an explicit event trace.  Python string operations used by the
code (`str.join`, `str.strip`) are given faithful list-based definitions.
-/

/-- Python `sep.join(parts)`: the empty string on an empty list, otherwise
the parts interleaved with the separator. -/
def pyJoin (sep : String) : List String → String
  | [] => ""
  | [s] => s
  | s :: rest => s ++ sep ++ pyJoin sep rest

/-- Remove leading and trailing whitespace of a character list, as Python
`str.strip()` does. -/
def pyStripList (l : List Char) : List Char :=
  ((l.dropWhile Char.isWhitespace).reverse.dropWhile Char.isWhitespace).reverse

/-- Python `s.strip()` on strings. -/
def pyStrip (s : String) : String :=
  String.mk (pyStripList s.toList)

/-- Boolean test that `s` begins with the string `p`. -/
def strBeginsWith (s p : String) : Bool :=
  s.toList.take p.toList.length == p.toList

/-- Occurrence test for the pattern `pat` at offset `i` of `l`. -/
def occursAt (pat l : List Char) (i : Nat) : Bool :=
  (l.drop i).take pat.length == pat

/-- Number of (possibly overlapping) occurrences of `pat` inside `l`. -/
def countOccs (pat l : List Char) : Nat :=
  (List.range (l.length + 1)).countP (occursAt pat l)

/-- Substring test: does `pat` occur anywhere inside `l`? -/
def containsSub (pat l : List Char) : Bool :=
  (List.range (l.length + 1)).any (occursAt pat l)

/-- Split a character list at every occurrence of the character `c`;
the result always has one more entry than the number of occurrences. -/
def splitOnChar (c : Char) : List Char → List (List Char)
  | [] => [[]]
  | x :: xs =>
    if x = c then [] :: splitOnChar c xs
    else
      match splitOnChar c xs with
      | [] => [[x]]
      | y :: ys => (x :: y) :: ys

/-- Lines of a string: the segments between newline characters. -/
def strLines (s : String) : List String :=
  (splitOnChar '\n' s.toList).map String.mk

/-- Token counters returned by the backend, normalized to the three counts
read by `calculate_gemini_3_cost` in `book_generator/utils.py`. -/
structure UsageMetadata where
  prompt_token_count : Nat
  candidates_token_count : Nat
  thoughts_token_count : Nat
deriving DecidableEq, Repr

/-- Cost report produced by `calculate_gemini_3_cost` (utils.py). -/
structure CostReport where
  total_cost : ℚ
  input_cost : ℚ
  output_cost : ℚ
  prompt_tokens : Nat
  output_tokens : Nat
  tier_name : String
deriving DecidableEq, Repr

/-- Embedding of `calculate_gemini_3_cost` from `book_generator/utils.py`:
tiered pricing with the long-context tier above 200000 prompt tokens, and
thought tokens billed as output tokens. -/
def calculate_gemini_3_cost (usage_metadata : UsageMetadata) : CostReport :=
  let prompt_tokens := usage_metadata.prompt_token_count
  let candidates_tokens := usage_metadata.candidates_token_count
  let thoughts_tokens := usage_metadata.thoughts_token_count
  let input_rate : ℚ := if prompt_tokens > 200000 then 4 else 2
  let output_rate : ℚ := if prompt_tokens > 200000 then 18 else 12
  let tier_name : String :=
    if prompt_tokens > 200000 then "Long Context (>200k)" else "Standard (<200k)"
  let total_output_tokens := candidates_tokens + thoughts_tokens
  let input_cost := (prompt_tokens : ℚ) / 1000000 * input_rate
  let output_cost := (total_output_tokens : ℚ) / 1000000 * output_rate
  let total_cost := input_cost + output_cost
  { total_cost := total_cost
    input_cost := input_cost
    output_cost := output_cost
    prompt_tokens := prompt_tokens
    output_tokens := total_output_tokens
    tier_name := tier_name }

/-- Embedding of `get_part_label` from `chapter_based/execute.py`:
localized "Part" label with an English fallback. -/
def get_part_label (language : String) : String :=
  let labels : List (String × String) := [("en", "Part"), ("ru", "Часть"), ("de", "Teil")]
  (labels.lookup language).getD "Part"

/-- The fixed position marker appended to the current item's line by
`show_progress`. -/
def here_marker : String := "<-- YOU'RE CURRENTLY HERE"

/-- Embedding of `show_progress` (identical in `book_generator/execute.py`
and `chapter_based/execute.py`): a checklist of done, current and upcoming
items joined by newlines. -/
def show_progress {α : Type} (done : List α) (current : α) (todo : List α)
    (name_function : α → String) : String :=
  let progress_builder := done.map (fun c => "[x] " ++ name_function c)
  let progress_builder :=
    progress_builder ++ ["[ ] " ++ name_function current ++ " " ++ here_marker]
  let progress_builder :=
    progress_builder ++ todo.map (fun c => "[ ] " ++ name_function c)
  pyJoin "\n" progress_builder

example :
    show_progress ["A"] "B" ["C", "D"] id =
      "[x] A\n[ ] B <-- YOU'RE CURRENTLY HERE\n[ ] C\n[ ] D" := by
  decide

example : get_part_label "ru" = "Часть" := by decide

example : (calculate_gemini_3_cost ⟨100000, 10000, 0⟩).total_cost = 8 / 25 := by
  norm_num [calculate_gemini_3_cost]

/-- Backend response: generated text plus usage counters. -/
structure LLMResponse where
  text : String
  usage_metadata : UsageMetadata
deriving DecidableEq, Repr

/-- Observable effects of one orchestration run: backend calls and saves
through the content store, in the order they were performed. -/
inductive Event where
  | llmCall (instructions prompt : String)
  | saveIntro (part_number chapter_number : Nat) (content : String)
  | saveSection (part_number chapter_number section_number : Nat) (content : String)
  | saveChapter (part_number chapter_number : Nat) (content : String)
  | savePartIntro (part_number : Nat) (content : String)
  | saveBackCover (content : String)
deriving DecidableEq, Repr

namespace BG

/-! Embedding of the section-based executor `book_generator/execute.py`
together with the plan models of `book_generator/models.py`. -/

structure BookSectionPlan where
  name : String
  bullet_points : List String
deriving DecidableEq, Repr

structure BookChapterPlan where
  name : String
  sections : List BookSectionPlan
deriving DecidableEq, Repr

structure BookPartPlan where
  name : String
  introduction : String
  chapters : List BookChapterPlan
deriving DecidableEq, Repr

structure BookPlan where
  book_language : String
  name : String
  slug : String
  target_reader : String
  back_cover_description : String
  parts : List BookPartPlan
deriving DecidableEq, Repr

structure ChapterSpecs where
  part : BookPartPlan
  part_number : Nat
  chapter : BookChapterPlan
  chapter_number : Nat
  sections : List BookSectionPlan
deriving DecidableEq, Repr

/-- Content store of the section-based executor (the `ContentWriter`
interface): per-position chapter intros and sections. -/
structure Store where
  intro : Nat → Nat → Option String
  sect : Nat → Nat → Nat → Option String

def intro_exists (st : Store) (part_number chapter_number : Nat) : Bool :=
  (st.intro part_number chapter_number).isSome

def save_intro (st : Store) (part_number chapter_number : Nat) (content : String) : Store :=
  { st with intro := fun p c =>
      if p = part_number ∧ c = chapter_number then some content else st.intro p c }

def section_exists (st : Store) (part_number chapter_number section_number : Nat) : Bool :=
  (st.sect part_number chapter_number section_number).isSome

def save_section (st : Store) (part_number chapter_number section_number : Nat)
    (content : String) : Store :=
  { st with sect := fun p c s =>
      if p = part_number ∧ c = chapter_number ∧ s = section_number then some content
      else st.sect p c s }

/-- Mutable run state of one `BookExecutor` run: the content store, the
`CostTracker`'s accumulated total, and the trace of performed effects. -/
structure RunState where
  store : Store
  total_cost : ℚ
  events : List Event

/-- The backend and the YAML dumper, the two external collaborators of the
section-based executor.  `safe_dump` stands for
`yaml.safe_dump(chapter.model_dump(), ...)`. -/
structure Env (ε : Type) where
  llm : String → String → Except ε LLMResponse
  safe_dump : BookChapterPlan → String

def writer_instructions : String :=
  "Your task is based on the plan write a book section. \nYou execute it section-by-section and you're given the current progress\n\nA section should contain 800-1200 words. Don't use lists, use proper sentences,\nThe style is a a popular science book.\n\nOutput markdown, and use only level-3 headings. \n\nThe output language should match the input language."

def chapter_intro_instructions : String :=
  "\nBased on the chapter outline, you should write an introduction to the chapter \ndescribing what the chapter will cover. \n\nIt should be 50-80 words. Don't include lists, it should be proper sentences.\n\nThe output language should match the input language.\n"

/-- The `section_prompt_template.format(...)` call. -/
def section_prompt_format (chapter_name section_name section_outline
    chapter_progress book_progress : String) : String :=
  "The chapter name: " ++ chapter_name ++
    "\n\nThe section name: " ++ section_name ++
    "\n\nOutline: \n\n" ++ section_outline ++
    "\n\nCurrent chapter progress:\n\n" ++ chapter_progress ++
    "\n\nCurrent book progress:\n\n" ++ book_progress

/-- Embedding of `BookExecutor.process_section`: build the prompt, call the
backend, update the cost tracker, and hand back the generated text. -/
def process_section {ε : Type} (env : Env ε) (sec : BookSectionPlan)
    (chapter_spec : ChapterSpecs) (chapter_progress book_progress : String)
    (rs : RunState) : Except ε (RunState × String) := do
  let section_outline := pyJoin "\n" sec.bullet_points
  let section_prompt := section_prompt_format chapter_spec.chapter.name sec.name
    section_outline chapter_progress book_progress
  let section_response ← env.llm writer_instructions section_prompt
  let rs := { rs with
    total_cost := rs.total_cost +
      (calculate_gemini_3_cost section_response.usage_metadata).total_cost,
    events := rs.events ++ [Event.llmCall writer_instructions section_prompt] }
  pure (rs, section_response.text)

/-- Embedding of `BookExecutor._process_chapter_intro`: skip when present,
otherwise generate, format with a level-1 heading, strip, and save. -/
def process_chapter_intro {ε : Type} (env : Env ε) (current_spec : ChapterSpecs)
    (rs : RunState) : Except ε RunState :=
  if intro_exists rs.store current_spec.part_number current_spec.chapter_number then
    pure rs
  else do
    let chapter_overview := env.safe_dump current_spec.chapter
    let intro_response ← env.llm chapter_intro_instructions chapter_overview
    let rs := { rs with
      total_cost := rs.total_cost +
        (calculate_gemini_3_cost intro_response.usage_metadata).total_cost,
      events := rs.events ++ [Event.llmCall chapter_intro_instructions chapter_overview] }
    let intro_text := intro_response.text
    let intro_full_text := pyStrip ("# " ++ toString current_spec.chapter_number ++ ". " ++
      current_spec.chapter.name ++ "\n\n" ++ intro_text)
    pure { rs with
      store := save_intro rs.store current_spec.part_number current_spec.chapter_number
        intro_full_text,
      events := rs.events ++ [Event.saveIntro current_spec.part_number
        current_spec.chapter_number intro_full_text] }

/-- Embedding of `BookExecutor._process_single_section`.  The Python code
receives the index `i` and reads `current_spec.sections[i]`; here the
caller passes that element as `current_section` alongside `i`. -/
def process_single_section {ε : Type} (env : Env ε) (i : Nat)
    (current_section : BookSectionPlan) (current_spec : ChapterSpecs)
    (book_progress : String) (rs : RunState) : Except ε RunState :=
  let section_number := i + 1
  if section_exists rs.store current_spec.part_number current_spec.chapter_number
      section_number then
    pure rs
  else do
    let sections_completed := current_spec.sections.take i
    let sections_todo := current_spec.sections.drop (i + 1)
    let chapter_progress := show_progress sections_completed current_section sections_todo
      (fun c => c.name)
    let (rs, section_content) ← process_section env current_section current_spec
      chapter_progress book_progress rs
    let full_section_text := pyStrip ("## " ++ current_section.name ++ "\n\n" ++
      section_content)
    pure { rs with
      store := save_section rs.store current_spec.part_number current_spec.chapter_number
        section_number full_section_text,
      events := rs.events ++ [Event.saveSection current_spec.part_number
        current_spec.chapter_number section_number full_section_text] }

/-- Embedding of `BookExecutor._process_chapter_sections`: render the book
progress once, then process each section by position. -/
def process_chapter_sections {ε : Type} (env : Env ε) (current_spec : ChapterSpecs)
    (chapters_done chapters_todo : List ChapterSpecs) (rs : RunState) :
    Except ε RunState :=
  let book_progress := show_progress chapters_done current_spec chapters_todo
    (fun c => c.chapter.name)
  current_spec.sections.enum.foldlM
    (fun rs p => process_single_section env p.1 p.2 current_spec book_progress rs) rs

/-- Embedding of `BookExecutor.process_chapter`: intro first, then the
sections. -/
def process_chapter {ε : Type} (env : Env ε) (current_spec : ChapterSpecs)
    (chapters_done chapters_todo : List ChapterSpecs) (rs : RunState) :
    Except ε RunState := do
  let rs ← process_chapter_intro env current_spec rs
  process_chapter_sections env current_spec chapters_done chapters_todo rs

/-- Inner loop of `BookExecutor._build_chapter_specs`: the chapters of one
part, with the global chapter counter threaded through. -/
def build_specs_chapters (part : BookPartPlan) (part_idx : Nat) (chapter_idx : Nat) :
    List BookChapterPlan → List ChapterSpecs
  | [] => []
  | chapter :: rest =>
    { part := part, part_number := part_idx, chapter := chapter,
      chapter_number := chapter_idx + 1, sections := chapter.sections } ::
      build_specs_chapters part part_idx (chapter_idx + 1) rest

/-- Outer loop of `BookExecutor._build_chapter_specs` over the parts. -/
def build_specs_parts (part_idx chapter_idx : Nat) : List BookPartPlan → List ChapterSpecs
  | [] => []
  | part :: rest =>
    build_specs_chapters part (part_idx + 1) chapter_idx part.chapters ++
      build_specs_parts (part_idx + 1) (chapter_idx + part.chapters.length) rest

/-- Embedding of `BookExecutor._build_chapter_specs`: flatten the plan into
chapter specs with derived part and chapter numbers. -/
def build_chapter_specs (book_plan : BookPlan) : List ChapterSpecs :=
  build_specs_parts 0 0 book_plan.parts

/-- Embedding of `BookExecutor._process_all_chapters`. -/
def process_all_chapters {ε : Type} (env : Env ε) (chapter_specs : List ChapterSpecs)
    (rs : RunState) : Except ε RunState :=
  chapter_specs.enum.foldlM
    (fun rs p =>
      process_chapter env p.2 (chapter_specs.take p.1) (chapter_specs.drop (p.1 + 1)) rs)
    rs

/-- Embedding of `BookExecutor.execute`. -/
def execute {ε : Type} (env : Env ε) (book_plan : BookPlan) (rs : RunState) :
    Except ε RunState :=
  process_all_chapters env (build_chapter_specs book_plan) rs

/-- Decidable check that every content unit of the plan is already present
in the store. -/
def all_units_exist (book_plan : BookPlan) (st : Store) : Bool :=
  (build_chapter_specs book_plan).all fun spec =>
    intro_exists st spec.part_number spec.chapter_number &&
    (List.range spec.sections.length).all fun i =>
      section_exists st spec.part_number spec.chapter_number (i + 1)

end BG

namespace CB

/-! Embedding of the chapter-based executor `chapter_based/execute.py`
together with the plan models of `chapter_based/models.py`. -/

structure ChapterPlan where
  name : String
  bullet_points : List String
deriving DecidableEq, Repr

structure BookPartPlan where
  name : String
  introduction : String
  chapters : List ChapterPlan
deriving DecidableEq, Repr

structure BookPlan where
  book_language : String
  name : String
  slug : String
  target_reader : String
  back_cover_description : String
  parts : List BookPartPlan
deriving DecidableEq, Repr

structure ChapterSpecs where
  part : BookPartPlan
  part_number : Nat
  chapter : ChapterPlan
  chapter_number : Nat
deriving DecidableEq, Repr

/-- Content store of the chapter-based executor (the `ContentWriter`
interface): chapters, part intros and the back cover. -/
structure Store where
  chapter : Nat → Nat → Option String
  part_intro : Nat → Option String
  back_cover : Option String

def chapter_exists (st : Store) (part_number chapter_number : Nat) : Bool :=
  (st.chapter part_number chapter_number).isSome

def save_chapter (st : Store) (part_number chapter_number : Nat) (content : String) :
    Store :=
  { st with chapter := fun p c =>
      if p = part_number ∧ c = chapter_number then some content else st.chapter p c }

def part_intro_exists (st : Store) (part_number : Nat) : Bool :=
  (st.part_intro part_number).isSome

def save_part_intro (st : Store) (part_number : Nat) (content : String) : Store :=
  { st with part_intro := fun p =>
      if p = part_number then some content else st.part_intro p }

def back_cover_exists (st : Store) : Bool :=
  st.back_cover.isSome

def save_back_cover (st : Store) (content : String) : Store :=
  { st with back_cover := some content }

/-- Mutable run state of one chapter-based `BookExecutor` run. -/
structure RunState where
  store : Store
  total_cost : ℚ
  events : List Event

/-- The backend, the only external collaborator of the chapter-based
executor. -/
structure Env (ε : Type) where
  llm : String → String → Except ε LLMResponse

def writer_instructions : String :=
  "Your task is to write a complete chapter based on the given outline.\n\nYou should write a comprehensive chapter that covers all the bullet points provided.\nA chapter should contain approximately 3000-5000 words.\n\nThe style should be that of a popular science book - engaging, informative, and accessible.\n\nOutput markdown, and use level-2 (##) and level-3 (###) headings for sections within the chapter.\nDo not use level-1 headings as the chapter title will be added automatically.\n\nThe output language should match the input language."

/-- The `chapter_prompt_template.format(...)` call. -/
def chapter_prompt_format (book_title chapter_name chapter_outline
    book_progress : String) : String :=
  "The book title: " ++ book_title ++
    "\n\nThe chapter name: " ++ chapter_name ++
    "\n\nChapter outline (bullet points to cover):\n\n" ++ chapter_outline ++
    "\n\nCurrent book progress:\n\n" ++ book_progress

/-- Embedding of the chapter-based `BookExecutor.process_chapter`: build the
prompt, call the backend, update the tracker, and prepend the level-1
chapter title heading (without stripping). -/
def process_chapter {ε : Type} (env : Env ε) (book_plan : BookPlan)
    (chapter_spec : ChapterSpecs) (book_progress : String) (rs : RunState) :
    Except ε (RunState × String) := do
  let chapter_outline := pyJoin "\n" (chapter_spec.chapter.bullet_points.map
    (fun bp => "- " ++ bp))
  let chapter_prompt := chapter_prompt_format book_plan.name chapter_spec.chapter.name
    chapter_outline book_progress
  let chapter_response ← env.llm writer_instructions chapter_prompt
  let rs := { rs with
    total_cost := rs.total_cost +
      (calculate_gemini_3_cost chapter_response.usage_metadata).total_cost,
    events := rs.events ++ [Event.llmCall writer_instructions chapter_prompt] }
  let chapter_content := "# " ++ toString chapter_spec.chapter_number ++ ". " ++
    chapter_spec.chapter.name ++ "\n\n" ++ chapter_response.text
  pure (rs, chapter_content)

/-- Embedding of `BookExecutor._process_single_chapter`.  The Python code
receives the index `i` and reads `chapter_specs[i]`; here the caller passes
that element as `current_spec`. -/
def process_single_chapter {ε : Type} (env : Env ε) (book_plan : BookPlan)
    (current_spec : ChapterSpecs) (book_progress : String) (rs : RunState) :
    Except ε RunState :=
  if chapter_exists rs.store current_spec.part_number current_spec.chapter_number then
    pure rs
  else do
    let (rs, chapter_content) ← process_chapter env book_plan current_spec
      book_progress rs
    pure { rs with
      store := save_chapter rs.store current_spec.part_number
        current_spec.chapter_number chapter_content,
      events := rs.events ++ [Event.saveChapter current_spec.part_number
        current_spec.chapter_number chapter_content] }

/-- Embedding of the chapter-based `BookExecutor._process_all_chapters`. -/
def process_all_chapters {ε : Type} (env : Env ε) (book_plan : BookPlan)
    (chapter_specs : List ChapterSpecs) (rs : RunState) : Except ε RunState :=
  chapter_specs.enum.foldlM
    (fun rs p =>
      let book_progress := show_progress (chapter_specs.take p.1) p.2
        (chapter_specs.drop (p.1 + 1)) (fun c => c.chapter.name)
      process_single_chapter env book_plan p.2 book_progress rs)
    rs

/-- Inner loop of the chapter-based `BookExecutor._build_chapter_specs`. -/
def build_specs_chapters (part : BookPartPlan) (part_idx : Nat) (chapter_idx : Nat) :
    List ChapterPlan → List ChapterSpecs
  | [] => []
  | chapter :: rest =>
    { part := part, part_number := part_idx, chapter := chapter,
      chapter_number := chapter_idx + 1 } ::
      build_specs_chapters part part_idx (chapter_idx + 1) rest

/-- Outer loop of the chapter-based `BookExecutor._build_chapter_specs`. -/
def build_specs_parts (part_idx chapter_idx : Nat) : List BookPartPlan → List ChapterSpecs
  | [] => []
  | part :: rest =>
    build_specs_chapters part (part_idx + 1) chapter_idx part.chapters ++
      build_specs_parts (part_idx + 1) (chapter_idx + part.chapters.length) rest

/-- Embedding of the chapter-based `BookExecutor._build_chapter_specs`. -/
def build_chapter_specs (book_plan : BookPlan) : List ChapterSpecs :=
  build_specs_parts 0 0 book_plan.parts

/-- Embedding of `BookExecutor._process_back_cover`: a pure copy from the
plan, no backend involved. -/
def process_back_cover (book_plan : BookPlan) (rs : RunState) : RunState :=
  if back_cover_exists rs.store then rs
  else
    { rs with
      store := save_back_cover rs.store book_plan.back_cover_description,
      events := rs.events ++ [Event.saveBackCover book_plan.back_cover_description] }

/-- Embedding of `BookExecutor._process_part_intros`: for each part in
order, save the localized heading plus the part introduction copied from
the plan; no backend involved. -/
def process_part_intros (book_plan : BookPlan) (rs : RunState) : RunState :=
  book_plan.parts.enum.foldl
    (fun rs p =>
      let part_number := p.1 + 1
      if part_intro_exists rs.store part_number then rs
      else
        let part_label := get_part_label book_plan.book_language
        let content := "# " ++ part_label ++ " " ++ toString part_number ++ ": " ++
          p.2.name ++ "\n\n" ++ p.2.introduction
        { rs with
          store := save_part_intro rs.store part_number content,
          events := rs.events ++ [Event.savePartIntro part_number content] })
    rs

/-- Embedding of the chapter-based `BookExecutor.execute`. -/
def execute {ε : Type} (env : Env ε) (book_plan : BookPlan) (rs : RunState) :
    Except ε RunState :=
  let rs := process_back_cover book_plan rs
  let rs := process_part_intros book_plan rs
  process_all_chapters env book_plan (build_chapter_specs book_plan) rs

/-- Decidable check that every content unit of the chapter-based plan is
already present in the store. -/
def all_units_exist (book_plan : BookPlan) (st : Store) : Bool :=
  back_cover_exists st &&
  (List.range book_plan.parts.length).all (fun i => part_intro_exists st (i + 1)) &&
  (build_chapter_specs book_plan).all (fun spec =>
    chapter_exists st spec.part_number spec.chapter_number)

end CB

/-! Generic helper lemmas about effectful folds in the `Except` monad. -/

theorem foldlM_ok_of_fixed {ε α σ : Type} (f : σ → α → Except ε σ) :
    ∀ (l : List α) (s : σ), (∀ a ∈ l, f s a = Except.ok s) →
      l.foldlM f s = Except.ok s := by
  intro l
  induction l with
  | nil => intro s _; rfl
  | cons x xs ih =>
    intro s h
    have hx : f s x = Except.ok s := h x (List.mem_cons_self x xs)
    have hrest : ∀ a ∈ xs, f s a = Except.ok s := fun a ha => h a (List.mem_cons_of_mem x ha)
    simp only [List.foldlM_cons, hx]
    simpa using ih s hrest

theorem foldlM_error_head {ε α σ : Type} (f : σ → α → Except ε σ) (x : α) (xs : List α)
    (s : σ) (e : ε) (h : f s x = Except.error e) :
    (x :: xs).foldlM f s = Except.error e := by
  simp only [List.foldlM_cons, h]
  rfl

theorem foldl_fixed {α σ : Type} (f : σ → α → σ) :
    ∀ (l : List α) (s : σ), (∀ a ∈ l, f s a = s) → l.foldl f s = s := by
  intro l
  induction l with
  | nil => intro s _; rfl
  | cons x xs ih =>
    intro s h
    have hx : f s x = s := h x (List.mem_cons_self x xs)
    have hrest : ∀ a ∈ xs, f s a = s := fun a ha => h a (List.mem_cons_of_mem x ha)
    simp only [List.foldl_cons, hx]
    exact ih s hrest

/-- Claim C2: the cost estimator applies the standard rate table (2.00 in,
12.00 out per million tokens) at or below 200000 prompt tokens and the
long-context table (4.00 in, 18.00 out) above it, adding thoughts tokens to
candidates tokens before the output rate; with the two concrete instances
from the specification. -/
theorem claim_C2_cost_tiering (u : UsageMetadata) :
    (u.prompt_token_count ≤ 200000 →
      (calculate_gemini_3_cost u).total_cost =
        (u.prompt_token_count : ℚ) / 1000000 * 2 +
        ((u.candidates_token_count + u.thoughts_token_count : Nat) : ℚ) / 1000000 * 12) ∧
    (200000 < u.prompt_token_count →
      (calculate_gemini_3_cost u).total_cost =
        (u.prompt_token_count : ℚ) / 1000000 * 4 +
        ((u.candidates_token_count + u.thoughts_token_count : Nat) : ℚ) / 1000000 * 18) ∧
    (calculate_gemini_3_cost ⟨100000, 10000, 0⟩).total_cost =
      (100000 : ℚ) / 1000000 * 2 + (10000 : ℚ) / 1000000 * 12 ∧
    (calculate_gemini_3_cost ⟨250000, 10000, 5000⟩).total_cost =
      (250000 : ℚ) / 1000000 * 4 + (15000 : ℚ) / 1000000 * 18 := by
  refine ⟨fun h => ?_, fun h => ?_, ?_, ?_⟩
  · simp [calculate_gemini_3_cost, Nat.not_lt.mpr h]
  · simp [calculate_gemini_3_cost, h]
  · norm_num [calculate_gemini_3_cost]
  · norm_num [calculate_gemini_3_cost]

/-- Witness for C2 at the two concrete usage records of the claim. -/
theorem claim_C2_cost_tiering_witness :
    ((100000 ≤ 200000) ∧
      (calculate_gemini_3_cost ⟨100000, 10000, 0⟩).total_cost =
        (100000 : ℚ) / 1000000 * 2 + ((10000 + 0 : Nat) : ℚ) / 1000000 * 12) ∧
    ((200000 < 250000) ∧
      (calculate_gemini_3_cost ⟨250000, 10000, 5000⟩).total_cost =
        (250000 : ℚ) / 1000000 * 4 + ((10000 + 5000 : Nat) : ℚ) / 1000000 * 18) :=
  ⟨⟨by norm_num, (claim_C2_cost_tiering ⟨100000, 10000, 0⟩).1 (by norm_num)⟩,
   ⟨by norm_num, (claim_C2_cost_tiering ⟨250000, 10000, 5000⟩).2.1 (by norm_num)⟩⟩

/-- Claim C9: the part-label lookup returns the Cyrillic word for "ru", the
German word for "de", the English word for "en", and the English label for
every other language tag. -/
theorem claim_C9_part_label :
    get_part_label "ru" = "Часть" ∧ get_part_label "de" = "Teil" ∧
    get_part_label "en" = "Part" ∧
    ∀ language : String, language ∉ (["ru", "en", "de"] : List String) →
      get_part_label language = "Part" := by
  refine ⟨by decide, by decide, by decide, fun language h => ?_⟩
  simp only [List.mem_cons, List.not_mem_nil, or_false, not_or] at h
  obtain ⟨h1, h2, h3⟩ := h
  simp [get_part_label, List.lookup, beq_eq_false_iff_ne.mpr h1,
    beq_eq_false_iff_ne.mpr h2, beq_eq_false_iff_ne.mpr h3]

/-- Witness for C9: the unsupported tag "fr" falls back to the English label. -/
theorem claim_C9_part_label_witness :
    ("fr" ∉ (["ru", "en", "de"] : List String)) ∧ get_part_label "fr" = "Part" :=
  ⟨by decide, claim_C9_part_label.2.2.2 "fr" (by decide)⟩

theorem except_bind_ok {ε α β : Type} (a : α) (f : α → Except ε β) :
    (Except.ok a >>= f) = f a := rfl

theorem except_bind_error {ε α β : Type} (e : ε) (f : α → Except ε β) :
    ((Except.error e : Except ε α) >>= f) = Except.error e := rfl

theorem except_pure_eq_ok {ε α : Type} (a : α) : (pure a : Except ε α) = Except.ok a := rfl

/-! Per-unit behaviour of the section-based executor. -/

/-- When the chapter intro already exists the unit is skipped: no backend
call, no save, state unchanged. -/
theorem BG.process_chapter_intro_skip {ε : Type} (env : BG.Env ε) (spec : BG.ChapterSpecs)
    (rs : BG.RunState)
    (h : BG.intro_exists rs.store spec.part_number spec.chapter_number = true) :
    BG.process_chapter_intro env spec rs = Except.ok rs := by
  simp [BG.process_chapter_intro, h, except_pure_eq_ok]

/-- When the intro is absent and the backend errors, the error propagates
and nothing is saved. -/
theorem BG.process_chapter_intro_err {ε : Type} (env : BG.Env ε) (spec : BG.ChapterSpecs)
    (rs : BG.RunState) (e : ε)
    (habs : BG.intro_exists rs.store spec.part_number spec.chapter_number = false)
    (hllm : env.llm BG.chapter_intro_instructions (env.safe_dump spec.chapter) =
      Except.error e) :
    BG.process_chapter_intro env spec rs = Except.error e := by
  simp [BG.process_chapter_intro, habs, hllm, except_bind_error]

/-- The intro text saved on the success path. -/
def BG.intro_full_text (chapter_number : Nat) (chapter_name body : String) : String :=
  pyStrip ("# " ++ toString chapter_number ++ ". " ++ chapter_name ++ "\n\n" ++ body)

/-- When the intro is absent and the backend answers, the unit performs
exactly one call followed by one save of the stripped, heading-prefixed
text, and adds the estimated cost to the tracker. -/
theorem BG.process_chapter_intro_ok {ε : Type} (env : BG.Env ε) (spec : BG.ChapterSpecs)
    (rs : BG.RunState) (resp : LLMResponse)
    (habs : BG.intro_exists rs.store spec.part_number spec.chapter_number = false)
    (hllm : env.llm BG.chapter_intro_instructions (env.safe_dump spec.chapter) =
      Except.ok resp) :
    BG.process_chapter_intro env spec rs = Except.ok
      { store := BG.save_intro rs.store spec.part_number spec.chapter_number
          (BG.intro_full_text spec.chapter_number spec.chapter.name resp.text),
        total_cost := rs.total_cost +
          (calculate_gemini_3_cost resp.usage_metadata).total_cost,
        events := rs.events ++
          [Event.llmCall BG.chapter_intro_instructions (env.safe_dump spec.chapter),
           Event.saveIntro spec.part_number spec.chapter_number
             (BG.intro_full_text spec.chapter_number spec.chapter.name resp.text)] } := by
  simp [BG.process_chapter_intro, BG.intro_full_text, habs, hllm, except_bind_ok,
    except_pure_eq_ok, List.append_assoc]

/-- The prompt `_process_single_section` sends to the backend for the
section at position `i` (0-based) of the chapter. -/
def BG.section_prompt_of (i : Nat) (sec : BG.BookSectionPlan) (spec : BG.ChapterSpecs)
    (book_progress : String) : String :=
  BG.section_prompt_format spec.chapter.name sec.name (pyJoin "\n" sec.bullet_points)
    (show_progress (spec.sections.take i) sec (spec.sections.drop (i + 1))
      (fun c => c.name))
    book_progress

/-- The section text saved on the success path. -/
def BG.full_section_text (section_name body : String) : String :=
  pyStrip ("## " ++ section_name ++ "\n\n" ++ body)

/-- When the section already exists the unit is skipped. -/
theorem BG.process_single_section_skip {ε : Type} (env : BG.Env ε) (i : Nat)
    (sec : BG.BookSectionPlan) (spec : BG.ChapterSpecs) (book_progress : String)
    (rs : BG.RunState)
    (h : BG.section_exists rs.store spec.part_number spec.chapter_number (i + 1) = true) :
    BG.process_single_section env i sec spec book_progress rs = Except.ok rs := by
  simp [BG.process_single_section, h, except_pure_eq_ok]

/-- When the section is absent and the backend errors, the error propagates
and nothing is saved. -/
theorem BG.process_single_section_err {ε : Type} (env : BG.Env ε) (i : Nat)
    (sec : BG.BookSectionPlan) (spec : BG.ChapterSpecs) (book_progress : String)
    (rs : BG.RunState) (e : ε)
    (habs : BG.section_exists rs.store spec.part_number spec.chapter_number (i + 1) = false)
    (hllm : env.llm BG.writer_instructions (BG.section_prompt_of i sec spec book_progress) =
      Except.error e) :
    BG.process_single_section env i sec spec book_progress rs = Except.error e := by
  simp only [BG.process_single_section, habs, Bool.false_eq_true, if_false,
    BG.process_section, BG.section_prompt_of] at *
  simp [hllm, except_bind_error]

/-- When the section is absent and the backend answers, the unit performs
exactly one call followed by one save of the stripped, heading-prefixed
section text, and adds the estimated cost to the tracker. -/
theorem BG.process_single_section_ok {ε : Type} (env : BG.Env ε) (i : Nat)
    (sec : BG.BookSectionPlan) (spec : BG.ChapterSpecs) (book_progress : String)
    (rs : BG.RunState) (resp : LLMResponse)
    (habs : BG.section_exists rs.store spec.part_number spec.chapter_number (i + 1) = false)
    (hllm : env.llm BG.writer_instructions (BG.section_prompt_of i sec spec book_progress) =
      Except.ok resp) :
    BG.process_single_section env i sec spec book_progress rs = Except.ok
      { store := BG.save_section rs.store spec.part_number spec.chapter_number (i + 1)
          (BG.full_section_text sec.name resp.text),
        total_cost := rs.total_cost +
          (calculate_gemini_3_cost resp.usage_metadata).total_cost,
        events := rs.events ++
          [Event.llmCall BG.writer_instructions (BG.section_prompt_of i sec spec book_progress),
           Event.saveSection spec.part_number spec.chapter_number (i + 1)
             (BG.full_section_text sec.name resp.text)] } := by
  simp only [BG.process_single_section, habs, Bool.false_eq_true, if_false,
    BG.process_section, BG.section_prompt_of] at *
  simp [hllm, except_bind_ok, except_pure_eq_ok, BG.full_section_text, List.append_assoc]

/-! Per-unit behaviour of the chapter-based executor. -/

/-- The prompt the chapter-based executor sends to the backend for one
chapter. -/
def CB.chapter_prompt_of (book_plan : CB.BookPlan) (spec : CB.ChapterSpecs)
    (book_progress : String) : String :=
  CB.chapter_prompt_format book_plan.name spec.chapter.name
    (pyJoin "\n" (spec.chapter.bullet_points.map (fun bp => "- " ++ bp))) book_progress

/-- The chapter text saved on the success path (level-1 title heading, body
appended without stripping). -/
def CB.chapter_content_of (chapter_number : Nat) (chapter_name body : String) : String :=
  "# " ++ toString chapter_number ++ ". " ++ chapter_name ++ "\n\n" ++ body

/-- When the chapter already exists the unit is skipped. -/
theorem CB.process_single_chapter_skip {ε : Type} (env : CB.Env ε) (book_plan : CB.BookPlan)
    (spec : CB.ChapterSpecs) (book_progress : String) (rs : CB.RunState)
    (h : CB.chapter_exists rs.store spec.part_number spec.chapter_number = true) :
    CB.process_single_chapter env book_plan spec book_progress rs = Except.ok rs := by
  simp [CB.process_single_chapter, h, except_pure_eq_ok]

/-- When the chapter is absent and the backend errors, the error propagates
and nothing is saved. -/
theorem CB.process_single_chapter_err {ε : Type} (env : CB.Env ε) (book_plan : CB.BookPlan)
    (spec : CB.ChapterSpecs) (book_progress : String) (rs : CB.RunState) (e : ε)
    (habs : CB.chapter_exists rs.store spec.part_number spec.chapter_number = false)
    (hllm : env.llm CB.writer_instructions (CB.chapter_prompt_of book_plan spec book_progress) =
      Except.error e) :
    CB.process_single_chapter env book_plan spec book_progress rs = Except.error e := by
  simp only [CB.process_single_chapter, habs, Bool.false_eq_true, if_false,
    CB.process_chapter, CB.chapter_prompt_of] at *
  simp [hllm, except_bind_error]

/-- When the chapter is absent and the backend answers, the unit performs
exactly one call followed by one save of the title-prefixed chapter text. -/
theorem CB.process_single_chapter_ok {ε : Type} (env : CB.Env ε) (book_plan : CB.BookPlan)
    (spec : CB.ChapterSpecs) (book_progress : String) (rs : CB.RunState) (resp : LLMResponse)
    (habs : CB.chapter_exists rs.store spec.part_number spec.chapter_number = false)
    (hllm : env.llm CB.writer_instructions (CB.chapter_prompt_of book_plan spec book_progress) =
      Except.ok resp) :
    CB.process_single_chapter env book_plan spec book_progress rs = Except.ok
      { store := CB.save_chapter rs.store spec.part_number spec.chapter_number
          (CB.chapter_content_of spec.chapter_number spec.chapter.name resp.text),
        total_cost := rs.total_cost +
          (calculate_gemini_3_cost resp.usage_metadata).total_cost,
        events := rs.events ++
          [Event.llmCall CB.writer_instructions (CB.chapter_prompt_of book_plan spec book_progress),
           Event.saveChapter spec.part_number spec.chapter_number
             (CB.chapter_content_of spec.chapter_number spec.chapter.name resp.text)] } := by
  simp only [CB.process_single_chapter, habs, Bool.false_eq_true, if_false,
    CB.process_chapter, CB.chapter_prompt_of] at *
  simp [hllm, except_bind_ok, except_pure_eq_ok, CB.chapter_content_of, List.append_assoc]

/-- When the back cover already exists the unit is skipped. -/
theorem CB.process_back_cover_skip (book_plan : CB.BookPlan) (rs : CB.RunState)
    (h : CB.back_cover_exists rs.store = true) :
    CB.process_back_cover book_plan rs = rs := by
  simp [CB.process_back_cover, h]

/-- When the back cover is absent it is saved verbatim from the plan, with
no backend call and no cost update. -/
theorem CB.process_back_cover_save (book_plan : CB.BookPlan) (rs : CB.RunState)
    (h : CB.back_cover_exists rs.store = false) :
    CB.process_back_cover book_plan rs =
      { store := CB.save_back_cover rs.store book_plan.back_cover_description,
        total_cost := rs.total_cost,
        events := rs.events ++ [Event.saveBackCover book_plan.back_cover_description] } := by
  simp [CB.process_back_cover, h]

/-- Content of the part-intro file for the part at 0-based position `i`. -/
def CB.part_intro_content (book_plan : CB.BookPlan) (i : Nat) (part : CB.BookPartPlan) :
    String :=
  "# " ++ get_part_label book_plan.book_language ++ " " ++ toString (i + 1) ++ ": " ++
    part.name ++ "\n\n" ++ part.introduction

/-- When every part intro already exists, `_process_part_intros` changes
nothing. -/
theorem CB.process_part_intros_all_skip (book_plan : CB.BookPlan) (rs : CB.RunState)
    (h : ∀ i < book_plan.parts.length, CB.part_intro_exists rs.store (i + 1) = true) :
    CB.process_part_intros book_plan rs = rs := by
  apply foldl_fixed
  intro a ha
  have hget := List.mem_enum_iff_getElem?.mp ha
  obtain ⟨hlt, -⟩ := List.getElem?_eq_some.mp hget
  simp [h a.1 hlt]

/-- A chapter all of whose units already exist is processed without any
effect. -/
theorem BG.process_chapter_skip {ε : Type} (env : BG.Env ε) (spec : BG.ChapterSpecs)
    (chapters_done chapters_todo : List BG.ChapterSpecs) (rs : BG.RunState)
    (hintro : BG.intro_exists rs.store spec.part_number spec.chapter_number = true)
    (hsec : ∀ i < spec.sections.length,
      BG.section_exists rs.store spec.part_number spec.chapter_number (i + 1) = true) :
    BG.process_chapter env spec chapters_done chapters_todo rs = Except.ok rs := by
  have h1 := BG.process_chapter_intro_skip env spec rs hintro
  have h2 : BG.process_chapter_sections env spec chapters_done chapters_todo rs =
      Except.ok rs := by
    apply foldlM_ok_of_fixed
    intro a ha
    have hget := List.mem_enum_iff_getElem?.mp ha
    obtain ⟨hlt, -⟩ := List.getElem?_eq_some.mp hget
    exact BG.process_single_section_skip env a.1 a.2 spec _ rs (hsec a.1 hlt)
  simp [BG.process_chapter, h1, except_bind_ok, BG.process_chapter_sections] at h2 ⊢
  exact h2

/-- Running the section-based executor against a store that already holds
every unit of the plan is a no-op: no backend call, no save, no cost. -/
theorem BG.execute_all_skip {ε : Type} (env : BG.Env ε) (book_plan : BG.BookPlan)
    (rs : BG.RunState) (h : BG.all_units_exist book_plan rs.store = true) :
    BG.execute env book_plan rs = Except.ok rs := by
  rw [BG.all_units_exist, List.all_eq_true] at h
  apply foldlM_ok_of_fixed
  intro a ha
  have hget := List.mem_enum_iff_getElem?.mp ha
  obtain ⟨hlt, hnth⟩ := List.getElem?_eq_some.mp hget
  have hmem : a.2 ∈ BG.build_chapter_specs book_plan := by
    rw [← hnth]; exact List.getElem_mem hlt
  have hspec := h a.2 hmem
  rw [Bool.and_eq_true] at hspec
  obtain ⟨hintro, hsects⟩ := hspec
  rw [List.all_eq_true] at hsects
  apply BG.process_chapter_skip env a.2 _ _ rs hintro
  intro i hi
  exact hsects i (List.mem_range.mpr hi)

/-- Running the chapter-based executor against a store that already holds
every unit of the plan is a no-op. -/
theorem CB.cb_execute_all_skip {ε : Type} (env : CB.Env ε) (book_plan : CB.BookPlan)
    (rs : CB.RunState) (h : CB.all_units_exist book_plan rs.store = true) :
    CB.execute env book_plan rs = Except.ok rs := by
  rw [CB.all_units_exist, Bool.and_eq_true, Bool.and_eq_true] at h
  obtain ⟨⟨hbc, hpi⟩, hch⟩ := h
  rw [List.all_eq_true] at hpi hch
  have h1 : CB.process_back_cover book_plan rs = rs :=
    CB.process_back_cover_skip book_plan rs hbc
  have h2 : CB.process_part_intros book_plan rs = rs := by
    apply CB.process_part_intros_all_skip
    intro i hi
    exact hpi i (List.mem_range.mpr hi)
  have h3 : CB.process_all_chapters env book_plan (CB.build_chapter_specs book_plan) rs =
      Except.ok rs := by
    apply foldlM_ok_of_fixed
    intro a ha
    have hget := List.mem_enum_iff_getElem?.mp ha
    obtain ⟨hlt, hnth⟩ := List.getElem?_eq_some.mp hget
    have hmem : a.2 ∈ CB.build_chapter_specs book_plan := by
      rw [← hnth]; exact List.getElem_mem hlt
    exact CB.process_single_chapter_skip env book_plan a.2 _ rs (hch a.2 hmem)
  simp only [CB.execute, h1, h2]
  exact h3

/-! Concrete fixtures used by the witnesses. -/

def BG.sample_plan : BG.BookPlan :=
  { book_language := "en", name := "Sirens", slug := "sirens",
    target_reader := "curious readers", back_cover_description := "About sirens.",
    parts := [{ name := "Waves"
                introduction := "Intro to waves."
                chapters := [{ name := "Acoustics"
                               sections := [{ name := "Alpha"
                                              bullet_points := ["b1", "b2"] }] }] }] }

def BG.full_store : BG.Store :=
  { intro := fun p c => if p = 1 ∧ c = 1 then some "saved intro" else none,
    sect := fun p c s => if p = 1 ∧ c = 1 ∧ s = 1 then some "saved section" else none }

def BG.empty_store : BG.Store :=
  { intro := fun _ _ => none, sect := fun _ _ _ => none }

def BG.sample_env : BG.Env String :=
  { llm := fun _ _ => Except.error "backend offline",
    safe_dump := fun _ => "chapter-overview-yaml" }

def BG.full_rs : BG.RunState :=
  { store := BG.full_store, total_cost := 0, events := [] }

def CB.sample_plan : CB.BookPlan :=
  { book_language := "ru", name := "Sirens", slug := "sirens",
    target_reader := "curious readers", back_cover_description := "About sirens.",
    parts := [{ name := "Waves"
                introduction := "Intro to waves."
                chapters := [{ name := "Acoustics"
                               bullet_points := ["b1", "b2"] }] }] }

def CB.full_store : CB.Store :=
  { chapter := fun p c => if p = 1 ∧ c = 1 then some "saved chapter" else none,
    part_intro := fun p => if p = 1 then some "saved part intro" else none,
    back_cover := some "saved back cover" }

def CB.empty_store : CB.Store :=
  { chapter := fun _ _ => none, part_intro := fun _ => none, back_cover := none }

def CB.sample_env : CB.Env String :=
  { llm := fun _ _ => Except.error "backend offline" }

def CB.full_rs : CB.RunState :=
  { store := CB.full_store, total_cost := 0, events := [] }

/-- Claim C1: every unit whose existence check answers true is skipped with
no backend call and no save, and a run over a fully populated store is a
no-op in both executors: it performs zero backend calls and leaves the
store, the cost total and the event trace unchanged. -/
theorem claim_C1_idempotent :
    (∀ (ε : Type) (env : BG.Env ε) (spec : BG.ChapterSpecs) (rs : BG.RunState),
      BG.intro_exists rs.store spec.part_number spec.chapter_number = true →
      BG.process_chapter_intro env spec rs = Except.ok rs) ∧
    (∀ (ε : Type) (env : BG.Env ε) (i : Nat) (sec : BG.BookSectionPlan)
      (spec : BG.ChapterSpecs) (book_progress : String) (rs : BG.RunState),
      BG.section_exists rs.store spec.part_number spec.chapter_number (i + 1) = true →
      BG.process_single_section env i sec spec book_progress rs = Except.ok rs) ∧
    (∀ (ε : Type) (env : CB.Env ε) (book_plan : CB.BookPlan) (spec : CB.ChapterSpecs)
      (book_progress : String) (rs : CB.RunState),
      CB.chapter_exists rs.store spec.part_number spec.chapter_number = true →
      CB.process_single_chapter env book_plan spec book_progress rs = Except.ok rs) ∧
    (∀ (book_plan : CB.BookPlan) (rs : CB.RunState),
      CB.back_cover_exists rs.store = true →
      CB.process_back_cover book_plan rs = rs) ∧
    (∀ (book_plan : CB.BookPlan) (rs : CB.RunState),
      (∀ i < book_plan.parts.length, CB.part_intro_exists rs.store (i + 1) = true) →
      CB.process_part_intros book_plan rs = rs) ∧
    (∀ (ε : Type) (env : BG.Env ε) (book_plan : BG.BookPlan) (rs : BG.RunState),
      BG.all_units_exist book_plan rs.store = true →
      BG.execute env book_plan rs = Except.ok rs) ∧
    (∀ (ε : Type) (env : CB.Env ε) (book_plan : CB.BookPlan) (rs : CB.RunState),
      CB.all_units_exist book_plan rs.store = true →
      CB.execute env book_plan rs = Except.ok rs) :=
  ⟨fun _ env spec rs h => BG.process_chapter_intro_skip env spec rs h,
   fun _ env i sec spec bp rs h => BG.process_single_section_skip env i sec spec bp rs h,
   fun _ env plan spec bp rs h => CB.process_single_chapter_skip env plan spec bp rs h,
   fun plan rs h => CB.process_back_cover_skip plan rs h,
   fun plan rs h => CB.process_part_intros_all_skip plan rs h,
   fun _ env plan rs h => BG.execute_all_skip env plan rs h,
   fun _ env plan rs h => CB.cb_execute_all_skip env plan rs h⟩

/-- Witness for C1: on the concrete fixtures with fully populated stores,
both executors return the state unchanged. -/
theorem claim_C1_idempotent_witness :
    (BG.all_units_exist BG.sample_plan BG.full_rs.store = true ∧
      BG.execute BG.sample_env BG.sample_plan BG.full_rs = Except.ok BG.full_rs) ∧
    (CB.all_units_exist CB.sample_plan CB.full_rs.store = true ∧
      CB.execute CB.sample_env CB.sample_plan CB.full_rs = Except.ok CB.full_rs) :=
  ⟨⟨by decide,
    claim_C1_idempotent.2.2.2.2.2.1 String BG.sample_env BG.sample_plan BG.full_rs
      (by decide)⟩,
   ⟨by decide,
    claim_C1_idempotent.2.2.2.2.2.2 String CB.sample_env CB.sample_plan CB.full_rs
      (by decide)⟩⟩

def BG.empty_rs : BG.RunState :=
  { store := BG.empty_store, total_cost := 0, events := [] }

def CB.empty_rs : CB.RunState :=
  { store := CB.empty_store, total_cost := 0, events := [] }

/-- The first chapter spec produced by flattening `BG.sample_plan`. -/
def BG.sample_spec : BG.ChapterSpecs :=
  { part := { name := "Waves"
              introduction := "Intro to waves."
              chapters := [{ name := "Acoustics"
                             sections := [{ name := "Alpha"
                                            bullet_points := ["b1", "b2"] }] }] }
    part_number := 1
    chapter := { name := "Acoustics"
                 sections := [{ name := "Alpha", bullet_points := ["b1", "b2"] }] }
    chapter_number := 1
    sections := [{ name := "Alpha", bullet_points := ["b1", "b2"] }] }

/-- A whole chapter fails as soon as its intro generation fails. -/
theorem BG.process_chapter_err_intro {ε : Type} (env : BG.Env ε) (spec : BG.ChapterSpecs)
    (chapters_done chapters_todo : List BG.ChapterSpecs) (rs : BG.RunState) (e : ε)
    (habs : BG.intro_exists rs.store spec.part_number spec.chapter_number = false)
    (hllm : env.llm BG.chapter_intro_instructions (env.safe_dump spec.chapter) =
      Except.error e) :
    BG.process_chapter env spec chapters_done chapters_todo rs = Except.error e := by
  have h1 := BG.process_chapter_intro_err env spec rs e habs hllm
  simp [BG.process_chapter, h1, except_bind_error]

/-- When the backend always fails and the first unit of the plan is absent,
the whole section-based run halts with that error. -/
theorem BG.execute_err_halts {ε : Type} (env : BG.Env ε) (book_plan : BG.BookPlan)
    (spec : BG.ChapterSpecs) (rest : List BG.ChapterSpecs) (rs : BG.RunState) (e : ε)
    (hspecs : BG.build_chapter_specs book_plan = spec :: rest)
    (habs : BG.intro_exists rs.store spec.part_number spec.chapter_number = false)
    (hllm : ∀ a b, env.llm a b = Except.error e) :
    BG.execute env book_plan rs = Except.error e := by
  rw [BG.execute, BG.process_all_chapters, hspecs, List.enum_cons]
  exact foldlM_error_head _ _ _ _ _
    (BG.process_chapter_err_intro env spec _ _ rs e habs (hllm _ _))

/-- Claim C5: a backend error at any single unit propagates uncaught (and
nothing is saved for that unit), a successful unit performs its save only
after the call has returned (the call event precedes the save event), and a
run whose first pending unit fails halts with the error. -/
theorem claim_C5_error_propagation :
    (∀ (ε : Type) (env : BG.Env ε) (spec : BG.ChapterSpecs) (rs : BG.RunState) (e : ε),
      BG.intro_exists rs.store spec.part_number spec.chapter_number = false →
      env.llm BG.chapter_intro_instructions (env.safe_dump spec.chapter) = Except.error e →
      BG.process_chapter_intro env spec rs = Except.error e) ∧
    (∀ (ε : Type) (env : BG.Env ε) (spec : BG.ChapterSpecs) (rs : BG.RunState)
      (resp : LLMResponse),
      BG.intro_exists rs.store spec.part_number spec.chapter_number = false →
      env.llm BG.chapter_intro_instructions (env.safe_dump spec.chapter) = Except.ok resp →
      BG.process_chapter_intro env spec rs = Except.ok
        { store := BG.save_intro rs.store spec.part_number spec.chapter_number
            (BG.intro_full_text spec.chapter_number spec.chapter.name resp.text),
          total_cost := rs.total_cost +
            (calculate_gemini_3_cost resp.usage_metadata).total_cost,
          events := rs.events ++
            [Event.llmCall BG.chapter_intro_instructions (env.safe_dump spec.chapter),
             Event.saveIntro spec.part_number spec.chapter_number
               (BG.intro_full_text spec.chapter_number spec.chapter.name resp.text)] }) ∧
    (∀ (ε : Type) (env : BG.Env ε) (i : Nat) (sec : BG.BookSectionPlan)
      (spec : BG.ChapterSpecs) (book_progress : String) (rs : BG.RunState) (e : ε),
      BG.section_exists rs.store spec.part_number spec.chapter_number (i + 1) = false →
      env.llm BG.writer_instructions (BG.section_prompt_of i sec spec book_progress) =
        Except.error e →
      BG.process_single_section env i sec spec book_progress rs = Except.error e) ∧
    (∀ (ε : Type) (env : BG.Env ε) (i : Nat) (sec : BG.BookSectionPlan)
      (spec : BG.ChapterSpecs) (book_progress : String) (rs : BG.RunState)
      (resp : LLMResponse),
      BG.section_exists rs.store spec.part_number spec.chapter_number (i + 1) = false →
      env.llm BG.writer_instructions (BG.section_prompt_of i sec spec book_progress) =
        Except.ok resp →
      BG.process_single_section env i sec spec book_progress rs = Except.ok
        { store := BG.save_section rs.store spec.part_number spec.chapter_number (i + 1)
            (BG.full_section_text sec.name resp.text),
          total_cost := rs.total_cost +
            (calculate_gemini_3_cost resp.usage_metadata).total_cost,
          events := rs.events ++
            [Event.llmCall BG.writer_instructions
               (BG.section_prompt_of i sec spec book_progress),
             Event.saveSection spec.part_number spec.chapter_number (i + 1)
               (BG.full_section_text sec.name resp.text)] }) ∧
    (∀ (ε : Type) (env : CB.Env ε) (book_plan : CB.BookPlan) (spec : CB.ChapterSpecs)
      (book_progress : String) (rs : CB.RunState) (e : ε),
      CB.chapter_exists rs.store spec.part_number spec.chapter_number = false →
      env.llm CB.writer_instructions (CB.chapter_prompt_of book_plan spec book_progress) =
        Except.error e →
      CB.process_single_chapter env book_plan spec book_progress rs = Except.error e) ∧
    (∀ (ε : Type) (env : CB.Env ε) (book_plan : CB.BookPlan) (spec : CB.ChapterSpecs)
      (book_progress : String) (rs : CB.RunState) (resp : LLMResponse),
      CB.chapter_exists rs.store spec.part_number spec.chapter_number = false →
      env.llm CB.writer_instructions (CB.chapter_prompt_of book_plan spec book_progress) =
        Except.ok resp →
      CB.process_single_chapter env book_plan spec book_progress rs = Except.ok
        { store := CB.save_chapter rs.store spec.part_number spec.chapter_number
            (CB.chapter_content_of spec.chapter_number spec.chapter.name resp.text),
          total_cost := rs.total_cost +
            (calculate_gemini_3_cost resp.usage_metadata).total_cost,
          events := rs.events ++
            [Event.llmCall CB.writer_instructions
               (CB.chapter_prompt_of book_plan spec book_progress),
             Event.saveChapter spec.part_number spec.chapter_number
               (CB.chapter_content_of spec.chapter_number spec.chapter.name resp.text)] }) ∧
    (∀ (ε : Type) (env : BG.Env ε) (book_plan : BG.BookPlan) (spec : BG.ChapterSpecs)
      (rest : List BG.ChapterSpecs) (rs : BG.RunState) (e : ε),
      BG.build_chapter_specs book_plan = spec :: rest →
      BG.intro_exists rs.store spec.part_number spec.chapter_number = false →
      (∀ a b, env.llm a b = Except.error e) →
      BG.execute env book_plan rs = Except.error e) :=
  ⟨fun _ env spec rs e h1 h2 => BG.process_chapter_intro_err env spec rs e h1 h2,
   fun _ env spec rs resp h1 h2 => BG.process_chapter_intro_ok env spec rs resp h1 h2,
   fun _ env i sec spec bp rs e h1 h2 =>
     BG.process_single_section_err env i sec spec bp rs e h1 h2,
   fun _ env i sec spec bp rs resp h1 h2 =>
     BG.process_single_section_ok env i sec spec bp rs resp h1 h2,
   fun _ env plan spec bp rs e h1 h2 =>
     CB.process_single_chapter_err env plan spec bp rs e h1 h2,
   fun _ env plan spec bp rs resp h1 h2 =>
     CB.process_single_chapter_ok env plan spec bp rs resp h1 h2,
   fun _ env plan spec rest rs e h1 h2 h3 =>
     BG.execute_err_halts env plan spec rest rs e h1 h2 h3⟩

/-- Witness for C5: on the sample plan with an empty store and an
always-failing backend, the run halts with the backend error. -/
theorem claim_C5_error_propagation_witness :
    (BG.build_chapter_specs BG.sample_plan = [BG.sample_spec]) ∧
    (BG.intro_exists BG.empty_rs.store BG.sample_spec.part_number
      BG.sample_spec.chapter_number = false) ∧
    BG.execute BG.sample_env BG.sample_plan BG.empty_rs =
      Except.error "backend offline" :=
  ⟨by decide, by decide,
   claim_C5_error_propagation.2.2.2.2.2.2 String BG.sample_env BG.sample_plan
     BG.sample_spec [] BG.empty_rs "backend offline" (by decide) (by decide)
     (fun _ _ => rfl)⟩

theorem toList_mk (l : List Char) : (String.mk l).toList = l := rfl

theorem toList_append (s t : String) : (s ++ t).toList = s.toList ++ t.toList := rfl

/-- Stripping surrounding whitespace from `h ++ t` keeps the block `h` at
the front whenever `h` begins and ends with non-whitespace characters. -/
theorem pyStripList_begins (h t : List Char)
    (hhead : ∃ c, h.head? = some c ∧ c.isWhitespace = false)
    (hlast : ∃ c, h.getLast? = some c ∧ c.isWhitespace = false) :
    (pyStripList (h ++ t)).take h.length = h := by
  obtain ⟨c, hc, hcw⟩ := hhead
  obtain ⟨d, hd, hdw⟩ := hlast
  unfold pyStripList
  have h1 : (h ++ t).dropWhile Char.isWhitespace = h ++ t := by
    cases h with
    | nil => simp at hc
    | cons x xs =>
      simp only [List.head?_cons, Option.some.injEq] at hc
      subst hc
      simp [List.dropWhile_cons, hcw]
  rw [h1, List.reverse_append, List.dropWhile_append]
  have h2 : h.reverse.dropWhile Char.isWhitespace = h.reverse := by
    have hh : h.reverse.head? = some d := by
      rw [List.head?_reverse]; exact hd
    cases hrev : h.reverse with
    | nil => simp
    | cons y ys =>
      rw [hrev] at hh
      simp only [List.head?_cons, Option.some.injEq] at hh
      subst hh
      simp [List.dropWhile_cons, hdw]
  by_cases hsplit : (t.reverse.dropWhile Char.isWhitespace).isEmpty = true
  · simp only [hsplit, if_true, h2, List.reverse_reverse]
    exact List.take_length h
  · simp only [hsplit, if_false, Bool.false_eq_true]
    rw [List.reverse_append, List.reverse_reverse]
    exact List.take_left h _

/-- `strBeginsWith` version of `pyStripList_begins`, phrased for strings. -/
theorem strBeginsWith_of_take {s p : String}
    (h : s.toList.take p.toList.length = p.toList) : strBeginsWith s p = true := by
  rw [strBeginsWith, h]
  exact beq_self_eq_true _

theorem getLast?_append_right {α : Type} (l₁ l₂ : List α) (d : α)
    (h : l₂.getLast? = some d) : (l₁ ++ l₂).getLast? = some d := by
  rw [List.getLast?_append, h, Option.or_some]

/-- The stripped intro text begins with its heading whenever the chapter
name does not end in whitespace. -/
theorem BG.intro_full_text_begins (n : Nat) (name body : String)
    (hlast : ∃ c, name.toList.getLast? = some c ∧ c.isWhitespace = false) :
    strBeginsWith (BG.intro_full_text n name body)
      ("# " ++ toString n ++ ". " ++ name) = true := by
  obtain ⟨d, hd, hdw⟩ := hlast
  apply strBeginsWith_of_take
  have hnn : ("\n\n" : String).toList = ['\n', '\n'] := by decide
  have hs : ("# " ++ toString n ++ ". " ++ name ++ "\n\n" ++ body).toList
      = ("# " ++ toString n ++ ". " ++ name).toList ++ ('\n' :: '\n' :: body.toList) := by
    rw [toList_append, toList_append, List.append_assoc, hnn]
    rfl
  rw [BG.intro_full_text, pyStrip, toList_mk, hs]
  apply pyStripList_begins
  · refine ⟨'#', ?_, by decide⟩
    rw [String.data_append, String.data_append, String.data_append]
    rfl
  · refine ⟨d, ?_, hdw⟩
    rw [String.data_append]
    exact getLast?_append_right _ _ _ hd

/-- The stripped section text begins with its level-2 heading whenever the
section name does not end in whitespace. -/
theorem BG.full_section_text_begins (name body : String)
    (hlast : ∃ c, name.toList.getLast? = some c ∧ c.isWhitespace = false) :
    strBeginsWith (BG.full_section_text name body) ("## " ++ name) = true := by
  obtain ⟨d, hd, hdw⟩ := hlast
  apply strBeginsWith_of_take
  have hnn : ("\n\n" : String).toList = ['\n', '\n'] := by decide
  have hs : ("## " ++ name ++ "\n\n" ++ body).toList
      = ("## " ++ name).toList ++ ('\n' :: '\n' :: body.toList) := by
    rw [toList_append, toList_append, List.append_assoc, hnn]
    rfl
  rw [BG.full_section_text, pyStrip, toList_mk, hs]
  apply pyStripList_begins
  · refine ⟨'#', ?_, by decide⟩
    rw [String.data_append]
    rfl
  · refine ⟨d, ?_, hdw⟩
    rw [String.data_append]
    exact getLast?_append_right _ _ _ hd

/-- Claim C6: a generated chapter intro is saved as the whole-string-trimmed
concatenation of the level-1 heading `# <number>. <name>`, a blank line and
the generated body; for any name not ending in whitespace (in particular
chapter 3 "Acoustics") the saved text therefore begins exactly with the
heading. -/
theorem claim_C6_intro_heading :
    (∀ (ε : Type) (env : BG.Env ε) (spec : BG.ChapterSpecs) (rs : BG.RunState)
      (resp : LLMResponse),
      BG.intro_exists rs.store spec.part_number spec.chapter_number = false →
      env.llm BG.chapter_intro_instructions (env.safe_dump spec.chapter) =
        Except.ok resp →
      BG.process_chapter_intro env spec rs = Except.ok
        { store := BG.save_intro rs.store spec.part_number spec.chapter_number
            (pyStrip ("# " ++ toString spec.chapter_number ++ ". " ++
              spec.chapter.name ++ "\n\n" ++ resp.text)),
          total_cost := rs.total_cost +
            (calculate_gemini_3_cost resp.usage_metadata).total_cost,
          events := rs.events ++
            [Event.llmCall BG.chapter_intro_instructions (env.safe_dump spec.chapter),
             Event.saveIntro spec.part_number spec.chapter_number
               (pyStrip ("# " ++ toString spec.chapter_number ++ ". " ++
                 spec.chapter.name ++ "\n\n" ++ resp.text))] }) ∧
    (∀ (n : Nat) (name body : String),
      (∃ c, name.toList.getLast? = some c ∧ c.isWhitespace = false) →
      strBeginsWith (BG.intro_full_text n name body)
        ("# " ++ toString n ++ ". " ++ name) = true) ∧
    (∀ body : String,
      strBeginsWith (BG.intro_full_text 3 "Acoustics" body) "# 3. Acoustics" = true) := by
  refine ⟨?_, ?_, ?_⟩
  · intro ε env spec rs resp h1 h2
    exact BG.process_chapter_intro_ok env spec rs resp h1 h2
  · intro n name body h
    exact BG.intro_full_text_begins n name body h
  · intro body
    have h := BG.intro_full_text_begins 3 "Acoustics" body ⟨'s', by decide, by decide⟩
    have he : ("# " ++ toString 3 ++ ". " ++ "Acoustics" : String) = "# 3. Acoustics" := by
      decide
    rw [he] at h
    exact h

def BG.sample_env_ok : BG.Env String :=
  { llm := fun _ _ => Except.ok { text := "Sound is a wave.", usage_metadata := ⟨10, 5, 2⟩ },
    safe_dump := fun _ => "chapter-overview-yaml" }

/-- Witness for C6 at chapter 3 "Acoustics" and a concrete backend reply. -/
theorem claim_C6_intro_heading_witness :
    (∃ c, ("Acoustics" : String).toList.getLast? = some c ∧ c.isWhitespace = false) ∧
    strBeginsWith (BG.intro_full_text 3 "Acoustics" "Sound is a wave.")
      ("# " ++ toString 3 ++ ". " ++ "Acoustics") = true ∧
    (BG.intro_exists BG.empty_rs.store BG.sample_spec.part_number
      BG.sample_spec.chapter_number = false) ∧
    BG.process_chapter_intro BG.sample_env_ok BG.sample_spec BG.empty_rs = Except.ok
      { store := BG.save_intro BG.empty_rs.store BG.sample_spec.part_number
          BG.sample_spec.chapter_number
          (pyStrip ("# " ++ toString BG.sample_spec.chapter_number ++ ". " ++
            BG.sample_spec.chapter.name ++ "\n\n" ++ "Sound is a wave.")),
        total_cost := BG.empty_rs.total_cost +
          (calculate_gemini_3_cost ⟨10, 5, 2⟩).total_cost,
        events := BG.empty_rs.events ++
          [Event.llmCall BG.chapter_intro_instructions
             (BG.sample_env_ok.safe_dump BG.sample_spec.chapter),
           Event.saveIntro BG.sample_spec.part_number BG.sample_spec.chapter_number
             (pyStrip ("# " ++ toString BG.sample_spec.chapter_number ++ ". " ++
               BG.sample_spec.chapter.name ++ "\n\n" ++ "Sound is a wave."))] } :=
  ⟨⟨'s', by decide, by decide⟩,
   claim_C6_intro_heading.2.1 3 "Acoustics" "Sound is a wave." ⟨'s', by decide, by decide⟩,
   by decide,
   claim_C6_intro_heading.1 String BG.sample_env_ok BG.sample_spec BG.empty_rs
     { text := "Sound is a wave.", usage_metadata := ⟨10, 5, 2⟩ } (by decide) rfl⟩

/-- Counterexample to C7 as stated: the section-based executor prefixes a
LEVEL-2 heading (`## `), not a third-level one.  On a concrete run the text
passed to the save operation is `"## Alpha\n\nSound is a wave."`, which
does not begin with `###` and differs from the third-level variant. -/
theorem claim_C7_counterexample :
    BG.process_single_section BG.sample_env_ok 0 ⟨"Alpha", ["b1", "b2"]⟩ BG.sample_spec
        "book progress" BG.empty_rs = Except.ok
      { store := BG.save_section BG.empty_rs.store 1 1 1 "## Alpha\n\nSound is a wave.",
        total_cost := BG.empty_rs.total_cost +
          (calculate_gemini_3_cost ⟨10, 5, 2⟩).total_cost,
        events := BG.empty_rs.events ++
          [Event.llmCall BG.writer_instructions
             (BG.section_prompt_of 0 ⟨"Alpha", ["b1", "b2"]⟩ BG.sample_spec "book progress"),
           Event.saveSection 1 1 1 "## Alpha\n\nSound is a wave."] } ∧
    strBeginsWith "## Alpha\n\nSound is a wave." "### " = false ∧
    "## Alpha\n\nSound is a wave." ≠ pyStrip ("### " ++ "Alpha" ++ "\n\n" ++ "Sound is a wave.") := by
  refine ⟨?_, by decide, by decide⟩
  have hc : BG.full_section_text "Alpha" "Sound is a wave." =
      "## Alpha\n\nSound is a wave." := by decide
  have h := BG.process_single_section_ok BG.sample_env_ok 0 ⟨"Alpha", ["b1", "b2"]⟩
    BG.sample_spec "book progress" BG.empty_rs
    { text := "Sound is a wave.", usage_metadata := ⟨10, 5, 2⟩ } (by decide) rfl
  rw [hc] at h
  exact h

/-- Claim C7 (amended): the text saved for a section is the
whole-string-trimmed concatenation of the SECOND-level heading
`## <section name>` (just the name, no number), a blank line, and the
generated content; for any section name not ending in whitespace the saved
text begins exactly with that heading. -/
theorem claim_C7_section_heading_amended :
    (∀ (ε : Type) (env : BG.Env ε) (i : Nat) (sec : BG.BookSectionPlan)
      (spec : BG.ChapterSpecs) (book_progress : String) (rs : BG.RunState)
      (resp : LLMResponse),
      BG.section_exists rs.store spec.part_number spec.chapter_number (i + 1) = false →
      env.llm BG.writer_instructions (BG.section_prompt_of i sec spec book_progress) =
        Except.ok resp →
      BG.process_single_section env i sec spec book_progress rs = Except.ok
        { store := BG.save_section rs.store spec.part_number spec.chapter_number (i + 1)
            (pyStrip ("## " ++ sec.name ++ "\n\n" ++ resp.text)),
          total_cost := rs.total_cost +
            (calculate_gemini_3_cost resp.usage_metadata).total_cost,
          events := rs.events ++
            [Event.llmCall BG.writer_instructions
               (BG.section_prompt_of i sec spec book_progress),
             Event.saveSection spec.part_number spec.chapter_number (i + 1)
               (pyStrip ("## " ++ sec.name ++ "\n\n" ++ resp.text))] }) ∧
    (∀ (name body : String),
      (∃ c, name.toList.getLast? = some c ∧ c.isWhitespace = false) →
      strBeginsWith (BG.full_section_text name body) ("## " ++ name) = true) := by
  refine ⟨?_, ?_⟩
  · intro ε env i sec spec bp rs resp h1 h2
    exact BG.process_single_section_ok env i sec spec bp rs resp h1 h2
  · intro name body h
    exact BG.full_section_text_begins name body h

/-- Witness for the amended C7 at the section "Alpha". -/
theorem claim_C7_section_heading_amended_witness :
    (∃ c, ("Alpha" : String).toList.getLast? = some c ∧ c.isWhitespace = false) ∧
    strBeginsWith (BG.full_section_text "Alpha" "Sound is a wave.") ("## " ++ "Alpha") = true :=
  ⟨⟨'a', by decide, by decide⟩,
   claim_C7_section_heading_amended.2 "Alpha" "Sound is a wave." ⟨'a', by decide, by decide⟩⟩

theorem except_map_ok {ε α β : Type} (a : α) (f : α → β) :
    (Except.ok a : Except ε α).map f = Except.ok (f a) := rfl

/-! Numbering of the flattened chapter specs. -/

theorem BG.build_specs_chapters_chapter_numbers (part : BG.BookPartPlan) (pi : Nat) :
    ∀ (l : List BG.BookChapterPlan) (ci : Nat),
    (BG.build_specs_chapters part pi ci l).map (fun s => s.chapter_number) =
      List.range' (ci + 1) l.length := by
  intro l
  induction l with
  | nil => intro ci; rfl
  | cons ch rest ih =>
    intro ci
    simp only [BG.build_specs_chapters, List.map_cons, List.length_cons, List.range'_succ]
    exact congrArg (List.cons _) (ih (ci + 1))

theorem BG.build_specs_chapters_part_numbers (part : BG.BookPartPlan) (pi : Nat) :
    ∀ (l : List BG.BookChapterPlan) (ci : Nat),
    (BG.build_specs_chapters part pi ci l).map (fun s => s.part_number) =
      List.replicate l.length pi := by
  intro l
  induction l with
  | nil => intro ci; rfl
  | cons ch rest ih =>
    intro ci
    simp only [BG.build_specs_chapters, List.map_cons, List.length_cons,
      List.replicate_succ]
    exact congrArg (List.cons _) (ih (ci + 1))

theorem BG.build_specs_parts_chapter_numbers :
    ∀ (l : List BG.BookPartPlan) (pi ci : Nat),
    (BG.build_specs_parts pi ci l).map (fun s => s.chapter_number) =
      List.range' (ci + 1) ((l.map (fun p => p.chapters.length)).sum) := by
  intro l
  induction l with
  | nil => intro pi ci; rfl
  | cons part rest ih =>
    intro pi ci
    simp only [BG.build_specs_parts, List.map_append, List.map_cons, List.sum_cons,
      BG.build_specs_chapters_chapter_numbers, ih]
    rw [show ci + part.chapters.length + 1 = (ci + 1) + part.chapters.length from by omega,
      Nat.add_comm part.chapters.length _]
    exact List.range'_append_1 (ci + 1) part.chapters.length _

theorem BG.build_specs_parts_part_numbers :
    ∀ (l : List BG.BookPartPlan) (pi ci : Nat),
    (BG.build_specs_parts pi ci l).map (fun s => s.part_number) =
      ((l.enumFrom pi).map (fun p => List.replicate p.2.chapters.length (p.1 + 1))).join := by
  intro l
  induction l with
  | nil => intro pi ci; rfl
  | cons part rest ih =>
    intro pi ci
    simp only [BG.build_specs_parts, List.map_append, List.enumFrom_cons, List.map_cons,
      List.join_cons, BG.build_specs_chapters_part_numbers, ih]

theorem CB.cb_build_specs_chapters_chapter_numbers (part : CB.BookPartPlan) (pi : Nat) :
    ∀ (l : List CB.ChapterPlan) (ci : Nat),
    (CB.build_specs_chapters part pi ci l).map (fun s => s.chapter_number) =
      List.range' (ci + 1) l.length := by
  intro l
  induction l with
  | nil => intro ci; rfl
  | cons ch rest ih =>
    intro ci
    simp only [CB.build_specs_chapters, List.map_cons, List.length_cons, List.range'_succ]
    exact congrArg (List.cons _) (ih (ci + 1))

theorem CB.cb_build_specs_chapters_part_numbers (part : CB.BookPartPlan) (pi : Nat) :
    ∀ (l : List CB.ChapterPlan) (ci : Nat),
    (CB.build_specs_chapters part pi ci l).map (fun s => s.part_number) =
      List.replicate l.length pi := by
  intro l
  induction l with
  | nil => intro ci; rfl
  | cons ch rest ih =>
    intro ci
    simp only [CB.build_specs_chapters, List.map_cons, List.length_cons,
      List.replicate_succ]
    exact congrArg (List.cons _) (ih (ci + 1))

theorem CB.cb_build_specs_parts_chapter_numbers :
    ∀ (l : List CB.BookPartPlan) (pi ci : Nat),
    (CB.build_specs_parts pi ci l).map (fun s => s.chapter_number) =
      List.range' (ci + 1) ((l.map (fun p => p.chapters.length)).sum) := by
  intro l
  induction l with
  | nil => intro pi ci; rfl
  | cons part rest ih =>
    intro pi ci
    simp only [CB.build_specs_parts, List.map_append, List.map_cons, List.sum_cons,
      CB.cb_build_specs_chapters_chapter_numbers, ih]
    rw [show ci + part.chapters.length + 1 = (ci + 1) + part.chapters.length from by omega,
      Nat.add_comm part.chapters.length _]
    exact List.range'_append_1 (ci + 1) part.chapters.length _

theorem CB.cb_build_specs_parts_part_numbers :
    ∀ (l : List CB.BookPartPlan) (pi ci : Nat),
    (CB.build_specs_parts pi ci l).map (fun s => s.part_number) =
      ((l.enumFrom pi).map (fun p => List.replicate p.2.chapters.length (p.1 + 1))).join := by
  intro l
  induction l with
  | nil => intro pi ci; rfl
  | cons part rest ih =>
    intro pi ci
    simp only [CB.build_specs_parts, List.map_append, List.enumFrom_cons, List.map_cons,
      List.join_cons, CB.cb_build_specs_chapters_part_numbers, ih]

/-- Extract the section number of a section-save event. -/
def sectionNumberOf : Event → Option Nat
  | Event.saveSection _ _ n _ => some n
  | _ => none

/-- Processing the sections of one chapter against a store where they are
all absent succeeds and saves them under the numbers `j+1, j+2, ...` in
order (stated for an error-free backend). -/
theorem BG.sections_fold_numbers (env : BG.Env Empty) (spec : BG.ChapterSpecs)
    (book_progress : String) :
    ∀ (l : List BG.BookSectionPlan) (j : Nat) (rs : BG.RunState),
    (∀ k < l.length,
      rs.store.sect spec.part_number spec.chapter_number (j + k + 1) = none) →
    ∃ (rs' : BG.RunState) (tail : List Event),
      (l.enumFrom j).foldlM
        (fun rs p => BG.process_single_section env p.1 p.2 spec book_progress rs) rs =
        Except.ok rs' ∧
      rs'.events = rs.events ++ tail ∧
      tail.filterMap sectionNumberOf = List.range' (j + 1) l.length := by
  intro l
  induction l with
  | nil =>
    intro j rs h
    exact ⟨rs, [], rfl, by simp, rfl⟩
  | cons sec rest ih =>
    intro j rs h
    have habs : BG.section_exists rs.store spec.part_number spec.chapter_number (j + 1) =
        false := by
      have h0 := h 0 (by simp only [List.length_cons]; omega)
      rw [BG.section_exists, h0]
      rfl
    cases hllm : env.llm BG.writer_instructions
        (BG.section_prompt_of j sec spec book_progress) with
    | error e => exact e.elim
    | ok resp =>
      have hstep := BG.process_single_section_ok env j sec spec book_progress rs resp
        habs hllm
      obtain ⟨rs', tail, hfold, hev, hnums⟩ :=
        ih (j + 1)
          { store := BG.save_section rs.store spec.part_number spec.chapter_number (j + 1)
              (BG.full_section_text sec.name resp.text),
            total_cost := rs.total_cost +
              (calculate_gemini_3_cost resp.usage_metadata).total_cost,
            events := rs.events ++
              [Event.llmCall BG.writer_instructions
                 (BG.section_prompt_of j sec spec book_progress),
               Event.saveSection spec.part_number spec.chapter_number (j + 1)
                 (BG.full_section_text sec.name resp.text)] }
          (by
            intro k hk
            simp only [BG.save_section]
            rw [if_neg (fun hcon => absurd hcon.2.2 (by omega))]
            rw [show j + 1 + k + 1 = j + (k + 1) + 1 from by omega]
            exact h (k + 1) (by simp only [List.length_cons]; omega))
      refine ⟨rs',
        [Event.llmCall BG.writer_instructions
           (BG.section_prompt_of j sec spec book_progress),
         Event.saveSection spec.part_number spec.chapter_number (j + 1)
           (BG.full_section_text sec.name resp.text)] ++ tail, ?_, ?_, ?_⟩
      · rw [List.enumFrom_cons, List.foldlM_cons, hstep, except_bind_ok]
        exact hfold
      · rw [hev, List.append_assoc]
      · rw [List.filterMap_append, hnums]
        simp only [List.filterMap, sectionNumberOf, List.length_cons, List.range'_succ]
        rfl

/-- A plan with two parts of two chapters each (section lists empty), used
for the concrete numbering check. -/
def BG.plan_two_by_two : BG.BookPlan :=
  { book_language := "en", name := "TwoByTwo", slug := "two-by-two",
    target_reader := "r", back_cover_description := "b",
    parts := [{ name := "P1"
                introduction := "i1"
                chapters := [{ name := "C1", sections := [] },
                             { name := "C2", sections := [] }] },
              { name := "P2"
                introduction := "i2"
                chapters := [{ name := "C3", sections := [] },
                             { name := "C4", sections := [] }] }] }

def BG.env_ok_empty : BG.Env Empty :=
  { llm := fun _ _ => Except.ok { text := "text", usage_metadata := ⟨1, 1, 0⟩ },
    safe_dump := fun _ => "chapter-overview-yaml" }

/-- Claim C4: flattening derives part numbers as 1-based part positions,
chapter numbers as a continuous 1-based counter over the whole book (both
executors), section numbers as 1-based positions local to the chapter (the
saves of one chapter's sections run under numbers 1..n in order), and on
the 2x2 plan the chapter numbers are 1,2,3,4 with part numbers 1,1,2,2. -/
theorem claim_C4_numbering :
    (∀ plan : BG.BookPlan,
      (BG.build_chapter_specs plan).map (fun s => s.chapter_number) =
        List.range' 1 ((plan.parts.map (fun p => p.chapters.length)).sum) ∧
      (BG.build_chapter_specs plan).map (fun s => s.part_number) =
        ((plan.parts.enum).map
          (fun p => List.replicate p.2.chapters.length (p.1 + 1))).join) ∧
    (∀ plan : CB.BookPlan,
      (CB.build_chapter_specs plan).map (fun s => s.chapter_number) =
        List.range' 1 ((plan.parts.map (fun p => p.chapters.length)).sum) ∧
      (CB.build_chapter_specs plan).map (fun s => s.part_number) =
        ((plan.parts.enum).map
          (fun p => List.replicate p.2.chapters.length (p.1 + 1))).join) ∧
    (∀ (env : BG.Env Empty) (spec : BG.ChapterSpecs)
      (chapters_done chapters_todo : List BG.ChapterSpecs) (rs : BG.RunState),
      (∀ k < spec.sections.length,
        rs.store.sect spec.part_number spec.chapter_number (k + 1) = none) →
      (BG.process_chapter_sections env spec chapters_done chapters_todo rs).map
        (fun rs' => (rs'.events.drop rs.events.length).filterMap sectionNumberOf) =
        Except.ok (List.range' 1 spec.sections.length)) ∧
    ((BG.build_chapter_specs BG.plan_two_by_two).map (fun s => s.chapter_number) =
        [1, 2, 3, 4] ∧
     (BG.build_chapter_specs BG.plan_two_by_two).map (fun s => s.part_number) =
        [1, 1, 2, 2]) := by
  refine ⟨?_, ?_, ?_, by decide, by decide⟩
  · intro plan
    exact ⟨BG.build_specs_parts_chapter_numbers plan.parts 0 0,
      BG.build_specs_parts_part_numbers plan.parts 0 0⟩
  · intro plan
    exact ⟨CB.cb_build_specs_parts_chapter_numbers plan.parts 0 0,
      CB.cb_build_specs_parts_part_numbers plan.parts 0 0⟩
  · intro env spec chapters_done chapters_todo rs h
    obtain ⟨rs', tail, hfold, hev, hnums⟩ :=
      BG.sections_fold_numbers env spec
        (show_progress chapters_done spec chapters_todo (fun c => c.chapter.name))
        spec.sections 0 rs
        (by intro k hk; rw [show 0 + k + 1 = k + 1 from by omega]; exact h k hk)
    simp only [BG.process_chapter_sections]
    rw [show (List.enum spec.sections) = spec.sections.enumFrom 0 from rfl, hfold,
      except_map_ok]
    rw [hev, List.drop_left, hnums]

/-- Witness for C4: processing the single section of the sample chapter
against the empty store saves it under number 1. -/
theorem claim_C4_numbering_witness :
    (BG.process_chapter_sections BG.env_ok_empty BG.sample_spec [] [] BG.empty_rs).map
      (fun rs' => (rs'.events.drop BG.empty_rs.events.length).filterMap sectionNumberOf) =
      Except.ok (List.range' 1 BG.sample_spec.sections.length) :=
  claim_C4_numbering.2.2.1 BG.env_ok_empty BG.sample_spec [] [] BG.empty_rs
    (fun _ _ => rfl)

/-- Recognize backend-call events. -/
def isLlmCall : Event → Bool
  | Event.llmCall _ _ => true
  | _ => false

/-- Processing part intros over parts `l` (positions from `j`) against a
store where they are all absent: pure saves of the plan's texts, cost
untouched, earlier keys untouched, each key `j+k+1` set to the localized
heading plus the part introduction. -/
theorem CB.part_intros_fold (book_plan : CB.BookPlan) :
    ∀ (l : List CB.BookPartPlan) (j : Nat) (rs : CB.RunState),
    (∀ k < l.length, rs.store.part_intro (j + k + 1) = none) →
    ∃ st : CB.Store,
      (l.enumFrom j).foldl
        (fun rs p =>
          let part_number := p.1 + 1
          if CB.part_intro_exists rs.store part_number then rs
          else
            let part_label := get_part_label book_plan.book_language
            let content := "# " ++ part_label ++ " " ++ toString part_number ++ ": " ++
              p.2.name ++ "\n\n" ++ p.2.introduction
            { rs with
              store := CB.save_part_intro rs.store part_number content,
              events := rs.events ++ [Event.savePartIntro part_number content] })
        rs =
        { store := st, total_cost := rs.total_cost,
          events := rs.events ++ (l.enumFrom j).map
            (fun p => Event.savePartIntro (p.1 + 1)
              (CB.part_intro_content book_plan p.1 p.2)) } ∧
      (∀ m ≤ j, st.part_intro m = rs.store.part_intro m) ∧
      (∀ k part, l.get? k = some part →
        st.part_intro (j + k + 1) =
          some (CB.part_intro_content book_plan (j + k) part)) := by
  intro l
  induction l with
  | nil =>
    intro j rs h
    refine ⟨rs.store, ?_, fun m _ => rfl, fun k part hk => by simp at hk⟩
    simp
  | cons part rest ih =>
    intro j rs h
    have habs : CB.part_intro_exists rs.store (j + 1) = false := by
      have h0 := h 0 (by simp only [List.length_cons]; omega)
      rw [CB.part_intro_exists, h0]
      rfl
    obtain ⟨st, hfold, hpres, hget⟩ :=
      ih (j + 1)
        { store := CB.save_part_intro rs.store (j + 1)
            (CB.part_intro_content book_plan j part),
          total_cost := rs.total_cost,
          events := rs.events ++ [Event.savePartIntro (j + 1)
            (CB.part_intro_content book_plan j part)] }
        (by
          intro k hk
          simp only [CB.save_part_intro]
          rw [if_neg (by omega)]
          rw [show j + 1 + k + 1 = j + (k + 1) + 1 from by omega]
          exact h (k + 1) (by simp only [List.length_cons]; omega))
    refine ⟨st, ?_, ?_, ?_⟩
    · rw [List.enumFrom_cons, List.foldl_cons]
      simp only [habs, Bool.false_eq_true, if_false, CB.part_intro_content] at hfold ⊢
      rw [hfold]
      simp [List.append_assoc, CB.part_intro_content]
    · intro m hm
      rw [hpres m (by omega)]
      simp only [CB.save_part_intro]
      rw [if_neg (by omega)]
    · intro k part' hk
      cases k with
      | zero =>
        simp only [List.get?_cons_zero, Option.some.injEq] at hk
        subst hk
        show st.part_intro (j + 1) = some (CB.part_intro_content book_plan j part)
        rw [hpres (j + 1) (by omega)]
        simp [CB.save_part_intro]
      | succ k =>
        simp only [List.get?_cons_succ] at hk
        have := hget k part' hk
        rw [show j + (k + 1) + 1 = j + 1 + k + 1 from by omega,
          show j + (k + 1) = j + 1 + k from by omega]
        exact this

/-- Claim C10: the chapter-based executor persists the back cover and every
part introduction by copying the plan's text (back cover verbatim; part
intro as `# <label> <n>: <name>` plus a blank line plus the introduction),
with no backend call among the produced events and no change to the
running cost total, for every plan and every store where they are absent. -/
theorem claim_C10_plan_copied_units :
    (∀ (book_plan : CB.BookPlan) (rs : CB.RunState),
      CB.back_cover_exists rs.store = false →
      CB.process_back_cover book_plan rs =
        { store := CB.save_back_cover rs.store book_plan.back_cover_description,
          total_cost := rs.total_cost,
          events := rs.events ++
            [Event.saveBackCover book_plan.back_cover_description] }) ∧
    (∀ (book_plan : CB.BookPlan) (rs : CB.RunState),
      (∀ k < book_plan.parts.length, rs.store.part_intro (k + 1) = none) →
      ∃ st : CB.Store,
        CB.process_part_intros book_plan rs =
          { store := st, total_cost := rs.total_cost,
            events := rs.events ++ book_plan.parts.enum.map
              (fun p => Event.savePartIntro (p.1 + 1)
                (CB.part_intro_content book_plan p.1 p.2)) } ∧
        (∀ k part, book_plan.parts.get? k = some part →
          st.part_intro (k + 1) = some (CB.part_intro_content book_plan k part))) ∧
    (∀ book_plan : CB.BookPlan,
      (book_plan.parts.enum.map
        (fun p => Event.savePartIntro (p.1 + 1)
          (CB.part_intro_content book_plan p.1 p.2))).all
        (fun e => !(isLlmCall e)) = true) ∧
    (∀ book_plan : CB.BookPlan, isLlmCall (Event.saveBackCover
      book_plan.back_cover_description) = false) := by
  refine ⟨?_, ?_, ?_, fun _ => rfl⟩
  · intro book_plan rs h
    exact CB.process_back_cover_save book_plan rs h
  · intro book_plan rs h
    obtain ⟨st, hfold, hpres, hget⟩ :=
      CB.part_intros_fold book_plan book_plan.parts 0 rs
        (by intro k hk; rw [show 0 + k + 1 = k + 1 from by omega]; exact h k hk)
    refine ⟨st, ?_, ?_⟩
    · rw [CB.process_part_intros]
      exact hfold
    · intro k part hk
      have := hget k part hk
      rw [show 0 + k + 1 = k + 1 from by omega, show 0 + k = k from by omega] at this
      exact this
  · intro book_plan
    rw [List.all_eq_true]
    intro e he
    obtain ⟨p, -, rfl⟩ := List.mem_map.mp he
    rfl

/-- Witness for C10 on the sample plan with an empty store: the back cover
save and the single localized part-intro save, with the cost untouched. -/
theorem claim_C10_plan_copied_units_witness :
    (CB.back_cover_exists CB.empty_rs.store = false) ∧
    CB.process_back_cover CB.sample_plan CB.empty_rs =
      { store := CB.save_back_cover CB.empty_rs.store
          CB.sample_plan.back_cover_description,
        total_cost := CB.empty_rs.total_cost,
        events := CB.empty_rs.events ++
          [Event.saveBackCover CB.sample_plan.back_cover_description] } ∧
    (CB.process_part_intros CB.sample_plan CB.empty_rs).events =
      CB.empty_rs.events ++ CB.sample_plan.parts.enum.map
        (fun p => Event.savePartIntro (p.1 + 1)
          (CB.part_intro_content CB.sample_plan p.1 p.2)) ∧
    (CB.process_part_intros CB.sample_plan CB.empty_rs).total_cost =
      CB.empty_rs.total_cost := by
  obtain ⟨st, heq, -⟩ :=
    claim_C10_plan_copied_units.2.1 CB.sample_plan CB.empty_rs (fun _ _ => rfl)
  refine ⟨by decide,
    claim_C10_plan_copied_units.1 CB.sample_plan CB.empty_rs (by decide), ?_, ?_⟩
  · rw [heq]
  · rw [heq]

theorem mk_toList (s : String) : String.mk s.toList = s := rfl

/-! Splitting a newline-joined checklist back into its lines. -/

theorem splitOnChar_not_mem (c : Char) :
    ∀ l : List Char, c ∉ l → splitOnChar c l = [l] := by
  intro l
  induction l with
  | nil => intro _; rfl
  | cons x xs ih =>
    intro h
    rw [splitOnChar, if_neg (by intro he; exact h (by rw [← he]; exact List.mem_cons_self x xs))]
    rw [ih (fun hm => h (List.mem_cons_of_mem x hm))]

theorem splitOnChar_append (c : Char) :
    ∀ (l₁ l₂ : List Char), c ∉ l₁ →
      splitOnChar c (l₁ ++ c :: l₂) = l₁ :: splitOnChar c l₂ := by
  intro l₁
  induction l₁ with
  | nil =>
    intro l₂ _
    rw [List.nil_append, splitOnChar, if_pos rfl]
  | cons x xs ih =>
    intro l₂ h
    rw [List.cons_append, splitOnChar,
      if_neg (by intro he; exact h (by rw [← he]; exact List.mem_cons_self x xs))]
    rw [ih l₂ (fun hm => h (List.mem_cons_of_mem x hm))]

/-- Joining newline-free lines with `"\n"` and splitting on newlines gives
the lines back. -/
theorem strLines_pyJoin :
    ∀ (parts : List String), parts ≠ [] → (∀ p ∈ parts, '\n' ∉ p.toList) →
      strLines (pyJoin "\n" parts) = parts := by
  intro parts
  induction parts with
  | nil => intro h _; exact absurd rfl h
  | cons p rest ih =>
    intro _ hfree
    cases rest with
    | nil =>
      rw [show pyJoin "\n" [p] = p from rfl, strLines,
        splitOnChar_not_mem '\n' p.toList (hfree p (List.mem_cons_self p []))]
      simp only [List.map_cons, List.map_nil, mk_toList]
    | cons q rest' =>
      rw [show pyJoin "\n" (p :: q :: rest') = p ++ "\n" ++ pyJoin "\n" (q :: rest')
        from rfl, strLines]
      have htl : (p ++ "\n" ++ pyJoin "\n" (q :: rest')).toList =
          p.toList ++ '\n' :: (pyJoin "\n" (q :: rest')).toList := by
        rw [toList_append, toList_append, List.append_assoc]
        rfl
      rw [htl, splitOnChar_append '\n' _ _ (hfree p (List.mem_cons_self p _))]
      simp only [List.map_cons, mk_toList]
      rw [show (splitOnChar '\n' (pyJoin "\n" (q :: rest')).toList).map String.mk =
        strLines (pyJoin "\n" (q :: rest')) from rfl]
      rw [ih (by simp) (fun x hx => hfree x (List.mem_cons_of_mem p hx))]

/-! Counting occurrences of the position marker. -/

theorem countOccs_cons (pat : List Char) (x : Char) (l : List Char) :
    countOccs pat (x :: l) =
      (if occursAt pat (x :: l) 0 = true then 1 else 0) + countOccs pat l := by
  rw [countOccs, countOccs, List.length_cons]
  rw [show l.length + 1 + 1 = (l.length + 1) + 1 from rfl, List.range_succ_eq_map]
  rw [List.countP_cons, List.countP_map]
  have hshift : (occursAt pat (x :: l)) ∘ Nat.succ = occursAt pat l :=
    funext fun i => rfl
  rw [hshift]
  omega

theorem get?_eq_head?_drop {α : Type} (l : List α) :
    ∀ i : Nat, l.get? i = (l.drop i).head? := by
  induction l with
  | nil => intro i; cases i <;> rfl
  | cons x xs ih =>
    intro i
    cases i with
    | zero => rfl
    | succ j => rw [List.get?_cons_succ, List.drop_succ_cons, ih j]

/-- A pattern occurrence at `i` forces the character at `i` to be the
pattern's head. -/
theorem get?_of_occursAt {pat l : List Char} {i : Nat}
    (hocc : occursAt pat l i = true) (hne : pat ≠ []) : l.get? i = pat.head? := by
  rw [occursAt] at hocc
  have htake := eq_of_beq hocc
  cases hp : pat with
  | nil => exact absurd hp hne
  | cons c cs =>
    rw [hp] at htake
    cases hd : l.drop i with
    | nil =>
      rw [hd] at htake
      simp at htake
    | cons y ys =>
      rw [hd] at htake
      rw [List.length_cons, List.take_succ_cons] at htake
      have hy : y = c := (List.cons.injEq _ _ _ _).mp htake |>.1
      rw [get?_eq_head?_drop, hd, hy]
      rfl

theorem countOccs_self (pat : List Char) (hne : pat ≠ []) : countOccs pat pat = 1 := by
  have hpos : 0 < pat.length := List.length_pos.mpr hne
  rw [countOccs, List.range_succ_eq_map, List.countP_cons, List.countP_map]
  have h0 : occursAt pat pat 0 = true := by
    rw [occursAt, List.drop_zero, List.take_length]
    exact beq_self_eq_true pat
  have hrest : List.countP ((occursAt pat pat) ∘ Nat.succ) (List.range pat.length) = 0 := by
    rw [List.countP_eq_zero]
    intro i hi
    rw [List.mem_range] at hi
    show ¬ occursAt pat pat (i + 1) = true
    rw [occursAt]
    intro hb
    have heq := eq_of_beq hb
    have hlen := congrArg List.length heq
    rw [List.length_take, List.length_drop] at hlen
    omega
  rw [hrest, h0]
  rfl

/-- If `pat` does not occur in `a` and has no proper self-overlap, then
`a ++ pat` contains exactly one occurrence of `pat`. -/
theorem countOccs_append_self (pat : List Char) (hne : pat ≠ [])
    (hbord : ∀ k, 0 < k → k < pat.length → pat.drop k ≠ pat.take (pat.length - k)) :
    ∀ a : List Char, (∀ i, occursAt pat a i = false) →
      countOccs pat (a ++ pat) = 1 := by
  intro a
  induction a with
  | nil => intro _; simpa using countOccs_self pat hne
  | cons x a' ih =>
    intro hnoc
    rw [List.cons_append, countOccs_cons]
    rw [ih (fun i => hnoc (i + 1))]
    suffices h : occursAt pat (x :: (a' ++ pat)) 0 = false by
      rw [h]
      simp
    by_cases hlen : pat.length ≤ (x :: a').length
    · simp only [occursAt, List.drop_zero]
      rw [show (x :: (a' ++ pat)) = (x :: a') ++ pat from rfl,
        List.take_append_eq_append_take,
        show pat.length - (x :: a').length = 0 from by omega,
        List.take_zero, List.append_nil]
      have h0 := hnoc 0
      rw [occursAt, List.drop_zero] at h0
      exact h0
    · push_neg at hlen
      simp only [occursAt, List.drop_zero]
      apply beq_eq_false_iff_ne.mpr
      intro heq
      rw [show (x :: (a' ++ pat)) = (x :: a') ++ pat from rfl,
        List.take_append_eq_append_take,
        List.take_of_length_le (by omega : (x :: a').length ≤ pat.length)] at heq
      have heq2 : (x :: a') ++ pat.take (pat.length - (x :: a').length) =
          pat.take (x :: a').length ++ pat.drop (x :: a').length :=
        heq.trans (List.take_append_drop _ _).symm
      have hl : (x :: a').length = (pat.take (x :: a').length).length := by
        rw [List.length_take]
        omega
      obtain ⟨-, h4⟩ := List.append_inj heq2 hl
      exact hbord (x :: a').length (by simp) hlen h4.symm

theorem here_marker_length : here_marker.toList.length = 25 := by decide

theorem here_marker_ne_nil : here_marker.toList ≠ [] := by decide

/-- The marker has no proper self-overlap (its only `<` is at position 0). -/
theorem here_marker_border_free :
    ∀ k, k < 25 → 0 < k →
      here_marker.toList.drop k ≠ here_marker.toList.take (25 - k) := by
  decide

/-- The marker cannot occur inside `"[ ] " ++ name ++ " "` when it does not
occur inside `name`: the checklist prefix has no `<`, and a crossing
occurrence would end in the space where the marker ends in `E`. -/
theorem marker_not_in_checklist_line (name : List Char)
    (hfc : ∀ j, occursAt here_marker.toList name j = false) :
    ∀ i, occursAt here_marker.toList
      (('[' :: ' ' :: ']' :: ' ' :: name) ++ [' ']) i = false := by
  intro i
  have hml_len : here_marker.toList.length = 25 := here_marker_length
  have hml_head : here_marker.toList.head? = some '<' := by decide
  by_contra hocc
  rw [Bool.not_eq_false] at hocc
  rcases i with _ | _ | _ | _ | j
  · have := get?_of_occursAt hocc here_marker_ne_nil
    rw [hml_head,
      show (('[' :: ' ' :: ']' :: ' ' :: name) ++ [' ']).get? 0 = some '[' from rfl] at this
    exact absurd this (by decide)
  · have := get?_of_occursAt hocc here_marker_ne_nil
    rw [hml_head,
      show (('[' :: ' ' :: ']' :: ' ' :: name) ++ [' ']).get? (0 + 1) = some ' ' from rfl]
      at this
    exact absurd this (by decide)
  · have := get?_of_occursAt hocc here_marker_ne_nil
    rw [hml_head,
      show (('[' :: ' ' :: ']' :: ' ' :: name) ++ [' ']).get? (0 + 1 + 1) = some ']' from rfl]
      at this
    exact absurd this (by decide)
  · have := get?_of_occursAt hocc here_marker_ne_nil
    rw [hml_head,
      show (('[' :: ' ' :: ']' :: ' ' :: name) ++ [' ']).get? (0 + 1 + 1 + 1) = some ' '
        from rfl] at this
    exact absurd this (by decide)
  · rw [occursAt] at hocc
    have hdrop : ((('[' :: ' ' :: ']' :: ' ' :: name) ++ [' ']).drop (j + 4)) =
        (name ++ [' ']).drop j := rfl
    rw [hdrop, List.drop_append_eq_append_drop] at hocc
    by_cases hj : j < name.length
    · rw [show j - name.length = 0 from by omega, List.drop_zero] at hocc
      by_cases hd25 : 25 ≤ (name.drop j).length
      · rw [hml_len, List.take_append_eq_append_take,
          show 25 - (name.drop j).length = 0 from by omega,
          List.take_zero, List.append_nil] at hocc
        have h0 := hfc j
        rw [occursAt, hml_len] at h0
        rw [h0] at hocc
        exact Bool.false_ne_true hocc
      · push_neg at hd25
        rw [hml_len, List.take_append_eq_append_take,
          List.take_of_length_le (by omega : (name.drop j).length ≤ 25),
          List.take_of_length_le
            (by simp only [List.length_cons, List.length_nil]; omega :
              ([' '] : List Char).length ≤ 25 - (name.drop j).length)] at hocc
        have heq := eq_of_beq hocc
        have hlast := congrArg List.getLast? heq
        rw [List.getLast?_concat] at hlast
        have hE : here_marker.toList.getLast? = some 'E' := by decide
        rw [hE] at hlast
        exact absurd hlast (by decide)
    · push_neg at hj
      rw [List.drop_eq_nil_of_le hj, List.nil_append] at hocc
      have heq := eq_of_beq hocc
      have hlen := congrArg List.length heq
      rw [List.length_take, List.length_drop, hml_len] at hlen
      simp only [List.length_cons, List.length_nil] at hlen
      omega

/-- The current item's checklist line carries the marker exactly once,
provided the rendered name does not itself contain the marker. -/
theorem marker_once_in_current_line (name : String)
    (hfc : ∀ j, occursAt here_marker.toList name.toList j = false) :
    countOccs here_marker.toList
      ("[ ] " ++ name ++ " " ++ here_marker).toList = 1 := by
  rw [show ("[ ] " ++ name ++ " " ++ here_marker).toList =
    (('[' :: ' ' :: ']' :: ' ' :: name.toList) ++ [' ']) ++ here_marker.toList from rfl]
  apply countOccs_append_self here_marker.toList here_marker_ne_nil
  · intro k hk0 hklen
    rw [here_marker_length] at hklen
    rw [here_marker_length]
    exact here_marker_border_free k hklen hk0
  · exact marker_not_in_checklist_line name.toList hfc

/-- The renderer is the newline-join of the checklist lines. -/
theorem show_progress_eq_pyJoin {α : Type} (done : List α) (current : α)
    (todo : List α) (f : α → String) :
    show_progress done current todo f =
      pyJoin "\n" (done.map (fun c => "[x] " ++ f c) ++
        ("[ ] " ++ f current ++ " " ++ here_marker) ::
          todo.map (fun c => "[ ] " ++ f c)) := by
  simp only [show_progress, List.append_assoc, List.singleton_append]

theorem occursAt_short (pat l : List Char) (h : l.length < pat.length) :
    ∀ j, occursAt pat l j = false := by
  intro j
  rw [occursAt]
  apply beq_eq_false_iff_ne.mpr
  intro he
  have hlen := congrArg List.length he
  rw [List.length_take, List.length_drop] at hlen
  omega

/-- Counterexample to C3 as stated: with a naming function whose output
contains a newline and a copy of the marker, the output has two lines
instead of `len(done) + 1 + len(todo) = 1` and the marker occurs twice. -/
theorem claim_C3_counterexample :
    (strLines (show_progress ([] : List String) "A <-- YOU'RE CURRENTLY HERE\nB" []
      (fun s => s))).length ≠ 0 + 1 + 0 ∧
    countOccs here_marker.toList
      (show_progress ([] : List String) "A <-- YOU'RE CURRENTLY HERE\nB" []
        (fun s => s)).toList = 2 := by
  constructor
  · decide
  · decide

/-- Claim C3 (amended): the renderer joins, with single newlines, one
`[x] `-prefixed line per done item in input order, then the current item's
`[ ] `-prefixed line carrying the marker, then one `[ ] `-prefixed line per
todo item in input order (not reversed); provided the rendered names
contain no newline, the output's line count is
`len(done) + 1 + len(todo)` and the lines are exactly that list, and
provided the current item's rendered name does not contain the marker, its
line carries the marker exactly once.  (As a Lean function it is pure and
deterministic by construction.) -/
theorem claim_C3_progress_renderer_amended :
    (∀ (α : Type) (done : List α) (current : α) (todo : List α) (f : α → String),
      show_progress done current todo f =
        pyJoin "\n" (done.map (fun c => "[x] " ++ f c) ++
          ("[ ] " ++ f current ++ " " ++ here_marker) ::
            todo.map (fun c => "[ ] " ++ f c))) ∧
    (∀ (α : Type) (done : List α) (current : α) (todo : List α) (f : α → String),
      (∀ x ∈ done, '\n' ∉ (f x).toList) → '\n' ∉ (f current).toList →
      (∀ x ∈ todo, '\n' ∉ (f x).toList) →
      strLines (show_progress done current todo f) =
        done.map (fun c => "[x] " ++ f c) ++
          ("[ ] " ++ f current ++ " " ++ here_marker) ::
            todo.map (fun c => "[ ] " ++ f c) ∧
      (strLines (show_progress done current todo f)).length =
        done.length + 1 + todo.length) ∧
    (∀ name : String,
      (∀ j, occursAt here_marker.toList name.toList j = false) →
      countOccs here_marker.toList
        ("[ ] " ++ name ++ " " ++ here_marker).toList = 1) := by
  refine ⟨fun α done current todo f => show_progress_eq_pyJoin done current todo f,
    ?_, fun name hfc => marker_once_in_current_line name hfc⟩
  intro α done current todo f h1 h2 h3
  have hlines : strLines (show_progress done current todo f) =
      done.map (fun c => "[x] " ++ f c) ++
        ("[ ] " ++ f current ++ " " ++ here_marker) ::
          todo.map (fun c => "[ ] " ++ f c) := by
    rw [show_progress_eq_pyJoin]
    apply strLines_pyJoin
    · simp
    · intro p hp
      rcases List.mem_append.mp hp with hd | hc
      · obtain ⟨x, hx, rfl⟩ := List.mem_map.mp hd
        rw [toList_append]
        intro hmem
        rcases List.mem_append.mp hmem with h | h
        · exact absurd h (by decide)
        · exact h1 x hx h
      · rcases List.mem_cons.mp hc with rfl | ht
        · rw [toList_append, toList_append, toList_append]
          intro hmem
          rcases List.mem_append.mp hmem with h | h
          · rcases List.mem_append.mp h with h' | h'
            · rcases List.mem_append.mp h' with h'' | h''
              · exact absurd h'' (by decide)
              · exact h2 h''
            · exact absurd h' (by decide)
          · exact absurd h (by decide)
        · obtain ⟨x, hx, rfl⟩ := List.mem_map.mp ht
          rw [toList_append]
          intro hmem
          rcases List.mem_append.mp hmem with h | h
          · exact absurd h (by decide)
          · exact h3 x hx h
  refine ⟨hlines, ?_⟩
  rw [hlines]
  simp only [List.length_append, List.length_map, List.length_cons]
  omega

/-- Witness for the amended C3 on the spec's own example
`done=["A"], current="B", todo=["C","D"]`, plus the marker count for the
current line. -/
theorem claim_C3_progress_renderer_amended_witness :
    strLines (show_progress ["A"] "B" ["C", "D"] (fun s => s)) =
      ["[x] A", "[ ] B <-- YOU'RE CURRENTLY HERE", "[ ] C", "[ ] D"] ∧
    (strLines (show_progress ["A"] "B" ["C", "D"] (fun s => s))).length = 1 + 1 + 2 ∧
    countOccs here_marker.toList ("[ ] " ++ "B" ++ " " ++ here_marker).toList = 1 := by
  obtain ⟨hl, hn⟩ :=
    claim_C3_progress_renderer_amended.2.1 String ["A"] "B" ["C", "D"] (fun s => s)
      (by decide) (by decide) (by decide)
  exact ⟨hl, hn,
    claim_C3_progress_renderer_amended.2.2 "B"
      (occursAt_short _ _ (by decide))⟩
